import Mathlib

/-!
# A shallow embedding of the `sun` Sea-of-Nodes concrete interpreter

This file embeds, in Lean 4, the data model and the operational code of the
`sun` prototype (a concrete interpreter for HotSpot C2 "Ideal Graph" dumps):

* `Value`, `ConcreteHeap` (src/include/suntv/interp/value.hpp, heap.hpp,
  src/src/interp/value.cpp, heap.cpp);
* `Opcode`, `NodeSchema`, `Node`, `Graph`
  (src/include/suntv/ir/opcode.hpp, node.hpp, graph.hpp and their .cpp files);
* the pure per-opcode `Evaluator` (src/src/interp/evaluator.cpp);
* the `Interpreter` (src/src/interp/interpreter.cpp): control stepping,
  memoized value evaluation, the Phi merge engine with loop back-edge
  snapshots, store replay on load, and outcome construction.

Modelling conventions:

* C++ `int32_t`/`int64_t` are embedded as `Int`; where the source relies on
  two's-complement wrap-around the result is reduced with `wrap32`/`wrap64`
  (signed overflow is UB in C++; the spec of the program fixes wrap-around
  semantics, which all mainstream targets realize).
* C++ exceptions are an explicit error channel `InterpErr`:
  `sun::EvalException` becomes `.evalExc`, every other escaping exception
  (`std::runtime_error`, `std::out_of_range`, `std::bad_variant_access`,
  `std::invalid_argument` from `stoi`, ...) becomes `.fatal`.  Member state
  of the C++ interpreter survives an exception, so the evaluation monad is
  `ExceptT InterpErr (StateM InterpState)` — state is threaded under the
  exception layer, exactly like C++ member mutation under `throw`.
* Nodes live in an arena: a node reference (`Node*`) is the node's position
  in `Graph.nodes`; a null `Node*` is `Option.none`.  `std::map` /
  `std::set` members become association lists / lists with the same
  lookup-and-overwrite semantics.
* Recursion over the (possibly cyclic) graph is driven by explicit fuel.
  The fuel of `evalNode` is exactly the remaining headroom of the source's
  `eval_depth_` guard (`kMaxEvalDepth = 2000`): entering `EvalNode` at
  depth 2001 throws in C++, and running `evalNode` with fuel `0` fails the
  same way here.
-/

namespace Sun

/-! ## Machine-integer helpers -/

/-- Two's-complement wrap of an integer into `[-2^31, 2^31)`. -/
def wrap32 (x : Int) : Int := (x + 2 ^ 31) % 2 ^ 32 - 2 ^ 31

/-- Two's-complement wrap of an integer into `[-2^63, 2^63)`. -/
def wrap64 (x : Int) : Int := (x + 2 ^ 63) % 2 ^ 64 - 2 ^ 63

/-- The value of an `int32_t` bit-pattern reinterpreted as `uint32_t`
(the `static_cast<uint32_t>` of the source). -/
def toU32 (x : Int) : Int := x % 2 ^ 32

/-- The value of an `int64_t` bit-pattern reinterpreted as `uint64_t`. -/
def toU64 (x : Int) : Int := x % 2 ^ 64

/-! ## Association lists with `std::map` semantics -/

/-- `std::map::find` — first binding of `k`, if any. -/
def alistGet {κ α : Type} [DecidableEq κ] : List (κ × α) → κ → Option α
  | [], _ => none
  | (k', a) :: t, k => if k' = k then some a else alistGet t k

/-- `std::map::operator[]=` — overwrite the binding of `k`, or append it. -/
def alistSet {κ α : Type} [DecidableEq κ] : List (κ × α) → κ → α → List (κ × α)
  | [], k, a => [(k, a)]
  | (k', a') :: t, k, a =>
    if k' = k then (k, a) :: t else (k', a') :: alistSet t k a

/-- `std::map::erase(key)`. -/
def alistErase {κ α : Type} [DecidableEq κ] : List (κ × α) → κ → List (κ × α)
  | [], _ => []
  | (k', a') :: t, k => if k' = k then t else (k', a') :: alistErase t k

theorem alistGet_set_self {κ α : Type} [DecidableEq κ]
    (l : List (κ × α)) (k : κ) (a : α) : alistGet (alistSet l k a) k = some a := by
  induction l with
  | nil => simp [alistGet, alistSet]
  | cons h t ih =>
    obtain ⟨k', a'⟩ := h
    by_cases hk : k' = k <;> simp [alistGet, alistSet, hk, ih]

theorem alistGet_set_ne {κ α : Type} [DecidableEq κ]
    (l : List (κ × α)) (k k' : κ) (a : α) (h : k ≠ k') :
    alistGet (alistSet l k a) k' = alistGet l k' := by
  induction l with
  | nil => simp [alistGet, alistSet, h]
  | cons hd t ih =>
    obtain ⟨k₀, a₀⟩ := hd
    by_cases hk : k₀ = k
    · subst hk; simp [alistGet, alistSet, h]
    · simp only [alistSet, if_neg hk, alistGet]
      by_cases hk' : k₀ = k' <;> simp [hk', ih]

/-! ## Errors

`sun::EvalException` (a subclass of `std::runtime_error` thrown by the
`Evaluator` and by `Interpreter::EvalAllocateArray`) is the only exception
that `Interpreter::ExecuteWithHeap` catches; every other exception escapes
`execute` to the caller.  We keep the two channels apart. -/

inductive InterpErr : Type where
  /-- A `sun::EvalException` (runtime trap convertible into `Outcome::Throw`). -/
  | evalExc (msg : String)
  /-- Any other escaping C++ exception (`std::runtime_error`,
  `std::out_of_range`, `std::bad_variant_access`, ...): a fatal interpreter
  failure that `execute` never converts into an `Outcome`. -/
  | fatal (msg : String)
  deriving Repr, DecidableEq

/-! ## Value (value.hpp / value.cpp) -/

/-- `sun::Value`: tagged union `I32 | I64 | Bool | Ref | Null`.
`Value::MakeNull()` sets `data.ref = 0`, which `as_ref` exposes. -/
inductive Value : Type where
  | i32 (v : Int)
  | i64 (v : Int)
  | b (v : Bool)
  | ref (r : Int)
  | null
  deriving Repr, DecidableEq

namespace Value

/-- `Value::MakeI32`. -/
def MakeI32 (v : Int) : Value := .i32 v

/-- `Value::MakeI64`. -/
def MakeI64 (v : Int) : Value := .i64 v

/-- `Value::MakeBool`. -/
def MakeBool (v : Bool) : Value := .b v

/-- `Value::MakeRef`. -/
def MakeRef (r : Int) : Value := .ref r

/-- `Value::MakeNull` (stores `data.ref = 0`). -/
def MakeNull : Value := .null

/-- `Value::as_i32`: throws `"Value is not i32"` unless the tag is `kI32`. -/
def as_i32 : Value → Except InterpErr Int
  | .i32 v => .ok v
  | _ => .error (.fatal "Value is not i32")

/-- `Value::as_i64`: throws `"Value is not i64"` unless the tag is `kI64`. -/
def as_i64 : Value → Except InterpErr Int
  | .i64 v => .ok v
  | _ => .error (.fatal "Value is not i64")

/-- `Value::as_bool`: throws `"Value is not bool"` unless the tag is `kBool`. -/
def as_bool : Value → Except InterpErr Bool
  | .b v => .ok v
  | _ => .error (.fatal "Value is not bool")

/-- `Value::as_ref`: accepts `kRef` *and* `kNull` (the source tests
`kind != kRef && kind != kNull`); for `Null` it returns the stored
`data.ref = 0`. -/
def as_ref : Value → Except InterpErr Int
  | .ref r => .ok r
  | .null => .ok 0
  | _ => .error (.fatal "Value is not ref/null")

/-- `Value::is_i32`. -/
def is_i32 : Value → Bool
  | .i32 _ => true
  | _ => false

/-- `Value::is_i64`. -/
def is_i64 : Value → Bool
  | .i64 _ => true
  | _ => false

/-- `Value::is_bool`. -/
def is_bool : Value → Bool
  | .b _ => true
  | _ => false

/-- `Value::is_ref` (`kRef` only — `Null` is *not* a ref here). -/
def is_ref : Value → Bool
  | .ref _ => true
  | _ => false

/-- `Value::is_null`. -/
def is_null : Value → Bool
  | .null => true
  | _ => false

end Value

/-! ## Heap (heap.hpp / heap.cpp) -/

/-- `sun::ConcreteHeap`: object fields keyed by `(ref, field-name)`, arrays
and their (redundant but mirrored) length map, and the `next_ref_` counter. -/
structure ConcreteHeap : Type where
  next_ref : Int
  fields : List ((Int × String) × Value)
  arrays : List (Int × List Value)
  array_lengths : List (Int × Int)
  deriving Repr, DecidableEq

namespace ConcreteHeap

/-- The default-constructed heap: `next_ref_ = 1`, empty maps. -/
def empty : ConcreteHeap := ⟨1, [], [], []⟩

/-- `ConcreteHeap::AllocateObject`: `next_ref_++`, no initialization. -/
def AllocateObject (h : ConcreteHeap) : Int × ConcreteHeap :=
  (h.next_ref, { h with next_ref := h.next_ref + 1 })

/-- `ConcreteHeap::AllocateArray`: negative length throws
`"Negative array length"` (a plain `std::runtime_error`); otherwise the
fresh ref maps to `length` copies of `I32(0)`. -/
def AllocateArray (h : ConcreteHeap) (length : Int) :
    Except InterpErr (Int × ConcreteHeap) :=
  if length < 0 then .error (.fatal "Negative array length")
  else
    let r := h.next_ref
    .ok (r, { next_ref := h.next_ref + 1
              fields := h.fields
              arrays := alistSet h.arrays r (List.replicate length.toNat (Value.MakeI32 0))
              array_lengths := alistSet h.array_lengths r length })

/-- `ConcreteHeap::ReadField`: an unset field reads as the default `I32(0)`. -/
def ReadField (h : ConcreteHeap) (obj : Int) (field : String) : Value :=
  match alistGet h.fields (obj, field) with
  | none => Value.MakeI32 0
  | some v => v

/-- `ConcreteHeap::WriteField`: overwrite. -/
def WriteField (h : ConcreteHeap) (obj : Int) (field : String) (val : Value) :
    ConcreteHeap :=
  { h with fields := alistSet h.fields (obj, field) val }

/-- `ConcreteHeap::ReadArray`: `"Invalid array reference"` for an unknown
ref, `"Array index out of bounds"` for an index outside `[0, size)` —
both plain `std::runtime_error`s, *not* `EvalException`s. -/
def ReadArray (h : ConcreteHeap) (arr : Int) (index : Int) :
    Except InterpErr Value :=
  match alistGet h.arrays arr with
  | none => .error (.fatal "Invalid array reference")
  | some vec =>
    if index < 0 ∨ (vec.length : Int) ≤ index then
      .error (.fatal "Array index out of bounds")
    else .ok (vec.getD index.toNat (Value.MakeI32 0))

/-- `ConcreteHeap::WriteArray`: same guards as `ReadArray`. -/
def WriteArray (h : ConcreteHeap) (arr : Int) (index : Int) (val : Value) :
    Except InterpErr ConcreteHeap :=
  match alistGet h.arrays arr with
  | none => .error (.fatal "Invalid array reference")
  | some vec =>
    if index < 0 ∨ (vec.length : Int) ≤ index then
      .error (.fatal "Array index out of bounds")
    else .ok { h with arrays := alistSet h.arrays arr (vec.set index.toNat val) }

/-- `ConcreteHeap::ArrayLength`: reads the mirrored length map. -/
def ArrayLength (h : ConcreteHeap) (arr : Int) : Except InterpErr Int :=
  match alistGet h.array_lengths arr with
  | none => .error (.fatal "Invalid array reference")
  | some len => .ok len

end ConcreteHeap

/-! ## Opcodes (opcode.hpp / opcode.cpp) -/

/-- `sun::Opcode` — the closed opcode enumeration, constructor for
constructor. -/
inductive Opcode : Type where
  | kStart | kIf | kIfTrue | kIfFalse | kRegion | kGoto | kReturn | kRoot
  | kHalt
  | kConI | kConL | kConP
  | kAddI | kSubI | kMulI | kDivI | kModI | kAbsI
  | kAddL | kSubL | kMulL | kDivL | kModL | kAbsL
  | kAndI | kOrI | kXorI | kLShiftI | kRShiftI | kURShiftI
  | kAndL | kOrL | kXorL | kLShiftL | kRShiftL | kURShiftL
  | kCmpI | kCmpL | kCmpP | kCmpU | kCmpUL | kBool
  | kConvI2L | kConvL2I | kConv2B | kCastII | kCastLL | kCastPP
  | kCastX2P | kCastP2X
  | kCMoveI | kCMoveL | kCMoveP
  | kLoadB | kLoadUB | kLoadS | kLoadUS | kLoadI | kLoadL | kLoadP | kLoadN
  | kStoreB | kStoreC | kStoreI | kStoreL | kStoreP | kStoreN
  | kMergeMem
  | kAllocate | kAllocateArray
  | kLoadRange | kRangeCheck
  | kParm
  | kPhi
  | kProj
  | kAddP
  | kSafePoint | kOpaque1 | kParsePredicate | kThreadLocal | kCallStaticJava
  | kUnknown
  deriving Repr, DecidableEq

/-- `sun::OpcodeToString` (opcode.cpp): the IGV name of each opcode. -/
def OpcodeToString : Opcode → String
  | .kStart => "Start" | .kIf => "If" | .kIfTrue => "IfTrue"
  | .kIfFalse => "IfFalse" | .kRegion => "Region" | .kGoto => "Goto"
  | .kReturn => "Return" | .kRoot => "Root" | .kHalt => "Halt"
  | .kConI => "ConI" | .kConL => "ConL" | .kConP => "ConP"
  | .kAddI => "AddI" | .kSubI => "SubI" | .kMulI => "MulI"
  | .kDivI => "DivI" | .kModI => "ModI" | .kAbsI => "AbsI"
  | .kAddL => "AddL" | .kSubL => "SubL" | .kMulL => "MulL"
  | .kDivL => "DivL" | .kModL => "ModL" | .kAbsL => "AbsL"
  | .kAndI => "AndI" | .kOrI => "OrI" | .kXorI => "XorI"
  | .kLShiftI => "LShiftI" | .kRShiftI => "RShiftI" | .kURShiftI => "URShiftI"
  | .kAndL => "AndL" | .kOrL => "OrL" | .kXorL => "XorL"
  | .kLShiftL => "LShiftL" | .kRShiftL => "RShiftL" | .kURShiftL => "URShiftL"
  | .kCmpI => "CmpI" | .kCmpL => "CmpL" | .kCmpP => "CmpP"
  | .kCmpU => "CmpU" | .kCmpUL => "CmpUL" | .kBool => "Bool"
  | .kConvI2L => "ConvI2L" | .kConvL2I => "ConvL2I" | .kConv2B => "Conv2B"
  | .kCastII => "CastII" | .kCastLL => "CastLL" | .kCastPP => "CastPP"
  | .kCastX2P => "CastX2P" | .kCastP2X => "CastP2X"
  | .kCMoveI => "CMoveI" | .kCMoveL => "CMoveL" | .kCMoveP => "CMoveP"
  | .kLoadB => "LoadB" | .kLoadUB => "LoadUB" | .kLoadS => "LoadS"
  | .kLoadUS => "LoadUS" | .kLoadI => "LoadI" | .kLoadL => "LoadL"
  | .kLoadP => "LoadP" | .kLoadN => "LoadN"
  | .kStoreB => "StoreB" | .kStoreC => "StoreC" | .kStoreI => "StoreI"
  | .kStoreL => "StoreL" | .kStoreP => "StoreP" | .kStoreN => "StoreN"
  | .kMergeMem => "MergeMem"
  | .kAllocate => "Allocate" | .kAllocateArray => "AllocateArray"
  | .kLoadRange => "LoadRange" | .kRangeCheck => "RangeCheck"
  | .kParm => "Parm" | .kPhi => "Phi" | .kProj => "Proj" | .kAddP => "AddP"
  | .kSafePoint => "SafePoint" | .kOpaque1 => "Opaque1"
  | .kParsePredicate => "ParsePredicate" | .kThreadLocal => "ThreadLocal"
  | .kCallStaticJava => "CallStaticJava" | .kUnknown => "Unknown"

/-- `sun::NodeSchema` — the per-opcode input-pattern classification. -/
inductive NodeSchema : Type where
  | kS0_Pure | kS1_Control | kS2_Merge | kS3_Load | kS4_Store
  | kS5_Allocate | kS6_Return | kS7_Start | kS8_Projection | kS9_Parameter
  | kUnknown
  deriving Repr, DecidableEq

/-- Modelled from the spec: `sun::GetSchema` is declared in
`opcode.hpp` but its definition is not part of the sources at hand; only
its callers (`Node::schema`, the interpreter) and the unit test
`NodeTest.SchemaClassification` are.  The classification follows the
spec's §3 "Schema" paragraph (S0 pure, S1 control, S2 merge for
Phi/Region/MergeMem, S3 load, S4 store, S5 allocate, S6 return, S7 start,
S8 projection, S9 parameter) together with §3's control-opcode list, and
matches every pinned expectation of the unit test. -/
def GetSchema : Opcode → NodeSchema
  | .kStart => .kS7_Start
  | .kIf | .kIfTrue | .kIfFalse | .kGoto | .kRoot | .kHalt
  | .kSafePoint | .kParsePredicate | .kCallStaticJava
  | .kRangeCheck => .kS1_Control
  | .kRegion | .kPhi | .kMergeMem => .kS2_Merge
  | .kLoadB | .kLoadUB | .kLoadS | .kLoadUS | .kLoadI | .kLoadL
  | .kLoadP | .kLoadN | .kLoadRange => .kS3_Load
  | .kStoreB | .kStoreC | .kStoreI | .kStoreL | .kStoreP | .kStoreN => .kS4_Store
  | .kAllocate | .kAllocateArray => .kS5_Allocate
  | .kReturn => .kS6_Return
  | .kProj => .kS8_Projection
  | .kParm => .kS9_Parameter
  | .kUnknown => .kUnknown
  | _ => .kS0_Pure

/-! ## Nodes and graphs (node.hpp / node.cpp / graph.hpp / graph.cpp) -/

/-- `sun::Property = std::variant<int32_t, int64_t, std::string, bool>`. -/
inductive Property : Type where
  | pI32 (v : Int)
  | pI64 (v : Int)
  | pStr (s : String)
  | pBool (b : Bool)
  deriving Repr, DecidableEq

/-- `sun::Node`.  A node reference (`Node*`) is an index into the owning
graph's `nodes` arena; input holes (`nullptr`) are `none`. -/
structure Node : Type where
  id : Int
  opcode : Opcode
  inputs : List (Option Nat)
  props : List (String × Property)
  deriving Repr, DecidableEq

instance : Inhabited Node := ⟨⟨0, .kUnknown, [], []⟩⟩

namespace Node

/-- `Node::num_inputs`. -/
def num_inputs (n : Node) : Nat := n.inputs.length

/-- `Node::input(i)` at a call site that has established `i < num_inputs`
(the source throws `std::out_of_range` otherwise; guarded call sites never
hit that). -/
def inputD (n : Node) (i : Nat) : Option Nat := n.inputs.getD i none

/-- `Node::input(i)` including the out-of-range throw: `none` stands for
the escaping `std::out_of_range("Input index out of range")`. -/
def inputChecked (n : Node) (i : Nat) : Except InterpErr (Option Nat) :=
  match n.inputs[i]? with
  | none => .error (.fatal "Input index out of range")
  | some o => .ok o

/-- `Node::has_prop`. -/
def has_prop (n : Node) (key : String) : Bool :=
  (alistGet n.props key).isSome

/-- `Node::prop` where the call site has established `has_prop`. -/
def propD (n : Node) (key : String) : Property :=
  (alistGet n.props key).getD (.pStr "")

/-- `Node::schema`. -/
def schema (n : Node) : NodeSchema := GetSchema n.opcode

/-- `Node::value_inputs`: skip to the schema-dependent first value
position, then drop the holes. -/
def value_inputs (n : Node) : List Nat :=
  let start : Option Nat :=
    match n.schema with
    | .kS0_Pure => some 0
    | .kS1_Control => some 1
    | .kS2_Merge => if n.opcode = .kPhi then some 1 else none
    | .kS3_Load => some 2
    | .kS4_Store => some 2
    | .kS5_Allocate => some 2
    | .kS6_Return => some 1
    | .kS9_Parameter => some 1
    | _ => none
  match start with
  | none => []
  | some s => (n.inputs.drop s).filterMap (fun o => o)

/-- `Node::region_input` (Phi only): `input[0]`, or null. -/
def region_input (n : Node) : Option Nat :=
  if n.opcode = .kPhi ∧ 0 < n.num_inputs then n.inputD 0 else none

/-- `Node::phi_values` (Phi only): `input[1..]` without holes. -/
def phi_values (n : Node) : List Nat :=
  if n.opcode = .kPhi then (n.inputs.drop 1).filterMap (fun o => o) else []

end Node

/-- `sun::Graph`: the arena (`node_list_` in insertion order).  `start_`
is overwritten by each added `Start` node, so it designates the *last*
`Start` in insertion order (canonicalized graphs have exactly one). -/
structure Graph : Type where
  nodes : List Node
  deriving Repr, DecidableEq

namespace Graph

/-- Dereference a node index (valid indices only arise from the arena). -/
def node (g : Graph) (i : Nat) : Node := g.nodes.getD i default

/-- `Graph::start()`: the last `Start` node added, if any. -/
def start? (g : Graph) : Option Nat :=
  ((List.range g.nodes.length).filter
    (fun i => (g.node i).opcode = .kStart)).getLast?

/-- `Graph::GetParameterNodes()`: all `Parm` nodes in arena order. -/
def GetParameterNodes (g : Graph) : List Nat :=
  (List.range g.nodes.length).filter (fun i => (g.node i).opcode = .kParm)

end Graph

/-! ## Evaluator (evaluator.cpp) — pure per-opcode semantics

Binary/unary ops extract operands via the throwing accessors; `*L`
operations first widen `I32` operands to `I64` (`WidenI32ToI64`).
Division/modulo by zero throw `EvalException`; everything else follows
two's-complement semantics (`wrap32`/`wrap64` stands for the
wrap-around the source relies on; C++ truncated division is `Int.tdiv`).
-/

namespace Evaluator

/-- `WidenI32ToI64` (evaluator.cpp): promote an `I32` to `I64`, pass
everything else through. -/
def WidenI32ToI64 (v : Value) : Value :=
  if v.is_i32 then
    match v with
    | .i32 x => .i64 x
    | _ => v
  else v

/-- `Evaluator::EvalAddI`. -/
def EvalAddI (a b : Value) : Except InterpErr Value := do
  return .i32 (wrap32 ((← a.as_i32) + (← b.as_i32)))

/-- `Evaluator::EvalSubI`. -/
def EvalSubI (a b : Value) : Except InterpErr Value := do
  return .i32 (wrap32 ((← a.as_i32) - (← b.as_i32)))

/-- `Evaluator::EvalMulI`. -/
def EvalMulI (a b : Value) : Except InterpErr Value := do
  return .i32 (wrap32 ((← a.as_i32) * (← b.as_i32)))

/-- `Evaluator::EvalDivI`: zero divisor throws
`EvalException("Division by zero")`; otherwise C++ truncated division. -/
def EvalDivI (a b : Value) : Except InterpErr Value := do
  let bv ← b.as_i32
  if bv = 0 then throw (.evalExc "Division by zero")
  return .i32 (wrap32 (Int.tdiv (← a.as_i32) bv))

/-- `Evaluator::EvalModI`: zero divisor throws
`EvalException("Modulo by zero")`; otherwise C++ truncated remainder. -/
def EvalModI (a b : Value) : Except InterpErr Value := do
  let bv ← b.as_i32
  if bv = 0 then throw (.evalExc "Modulo by zero")
  return .i32 (wrap32 (Int.tmod (← a.as_i32) bv))

/-- `Evaluator::EvalAbsI` (`std::abs`; the most-negative input wraps). -/
def EvalAbsI (a : Value) : Except InterpErr Value := do
  return .i32 (wrap32 |← a.as_i32|)

/-- `Evaluator::EvalAddL`. -/
def EvalAddL (a b : Value) : Except InterpErr Value := do
  let a := WidenI32ToI64 a
  let b := WidenI32ToI64 b
  return .i64 (wrap64 ((← a.as_i64) + (← b.as_i64)))

/-- `Evaluator::EvalSubL`. -/
def EvalSubL (a b : Value) : Except InterpErr Value := do
  let a := WidenI32ToI64 a
  let b := WidenI32ToI64 b
  return .i64 (wrap64 ((← a.as_i64) - (← b.as_i64)))

/-- `Evaluator::EvalMulL`. -/
def EvalMulL (a b : Value) : Except InterpErr Value := do
  let a := WidenI32ToI64 a
  let b := WidenI32ToI64 b
  return .i64 (wrap64 ((← a.as_i64) * (← b.as_i64)))

/-- `Evaluator::EvalDivL`. -/
def EvalDivL (a b : Value) : Except InterpErr Value := do
  let a := WidenI32ToI64 a
  let b := WidenI32ToI64 b
  let bv ← b.as_i64
  if bv = 0 then throw (.evalExc "Division by zero")
  return .i64 (wrap64 (Int.tdiv (← a.as_i64) bv))

/-- `Evaluator::EvalModL`. -/
def EvalModL (a b : Value) : Except InterpErr Value := do
  let a := WidenI32ToI64 a
  let b := WidenI32ToI64 b
  let bv ← b.as_i64
  if bv = 0 then throw (.evalExc "Modulo by zero")
  return .i64 (wrap64 (Int.tmod (← a.as_i64) bv))

/-- `Evaluator::EvalAbsL`. -/
def EvalAbsL (a : Value) : Except InterpErr Value := do
  let a := WidenI32ToI64 a
  return .i64 (wrap64 |← a.as_i64|)

/-- `Evaluator::EvalAndI`. -/
def EvalAndI (a b : Value) : Except InterpErr Value := do
  return .i32 (Int.land (← a.as_i32) (← b.as_i32))

/-- `Evaluator::EvalOrI`. -/
def EvalOrI (a b : Value) : Except InterpErr Value := do
  return .i32 (Int.lor (← a.as_i32) (← b.as_i32))

/-- `Evaluator::EvalXorI`. -/
def EvalXorI (a b : Value) : Except InterpErr Value := do
  return .i32 (Int.xor (← a.as_i32) (← b.as_i32))

/-- `Evaluator::EvalLShiftI`: shift count masked with `0x1F`. -/
def EvalLShiftI (a b : Value) : Except InterpErr Value := do
  return .i32 (wrap32 ((← a.as_i32) * 2 ^ (Int.land (← b.as_i32) 0x1F).toNat))

/-- `Evaluator::EvalRShiftI`: arithmetic right shift, count masked. -/
def EvalRShiftI (a b : Value) : Except InterpErr Value := do
  return .i32 (Int.fdiv (← a.as_i32) (2 ^ (Int.land (← b.as_i32) 0x1F).toNat))

/-- `Evaluator::EvalURShiftI`: logical right shift of the `uint32_t`
reinterpretation, count masked. -/
def EvalURShiftI (a b : Value) : Except InterpErr Value := do
  return .i32 (wrap32 (Int.fdiv (toU32 (← a.as_i32)) (2 ^ (Int.land (← b.as_i32) 0x1F).toNat)))

/-- `Evaluator::EvalAndL`. -/
def EvalAndL (a b : Value) : Except InterpErr Value := do
  let a := WidenI32ToI64 a
  let b := WidenI32ToI64 b
  return .i64 (Int.land (← a.as_i64) (← b.as_i64))

/-- `Evaluator::EvalOrL`. -/
def EvalOrL (a b : Value) : Except InterpErr Value := do
  let a := WidenI32ToI64 a
  let b := WidenI32ToI64 b
  return .i64 (Int.lor (← a.as_i64) (← b.as_i64))

/-- `Evaluator::EvalXorL`. -/
def EvalXorL (a b : Value) : Except InterpErr Value := do
  let a := WidenI32ToI64 a
  let b := WidenI32ToI64 b
  return .i64 (Int.xor (← a.as_i64) (← b.as_i64))

/-- `Evaluator::EvalLShiftL`: shift count masked with `0x3F`. -/
def EvalLShiftL (a b : Value) : Except InterpErr Value := do
  let a := WidenI32ToI64 a
  let b := WidenI32ToI64 b
  return .i64 (wrap64 ((← a.as_i64) * 2 ^ (Int.land (← b.as_i64) 0x3F).toNat))

/-- `Evaluator::EvalRShiftL`. -/
def EvalRShiftL (a b : Value) : Except InterpErr Value := do
  let a := WidenI32ToI64 a
  let b := WidenI32ToI64 b
  return .i64 (Int.fdiv (← a.as_i64) (2 ^ (Int.land (← b.as_i64) 0x3F).toNat))

/-- `Evaluator::EvalURShiftL`. -/
def EvalURShiftL (a b : Value) : Except InterpErr Value := do
  let a := WidenI32ToI64 a
  let b := WidenI32ToI64 b
  return .i64 (wrap64 (Int.fdiv (toU64 (← a.as_i64)) (2 ^ (Int.land (← b.as_i64) 0x3F).toNat)))

/-- `Evaluator::EvalConvI2L`: sign-extend. -/
def EvalConvI2L (a : Value) : Except InterpErr Value := do
  return .i64 (← a.as_i32)

/-- `Evaluator::EvalConvL2I`: truncate to 32 bits (widen an `I32` first,
as the source does). -/
def EvalConvL2I (a : Value) : Except InterpErr Value := do
  let a := WidenI32ToI64 a
  return .i32 (wrap32 (← a.as_i64))

/-- `Evaluator::EvalCMoveI` (also the `L`/`P` variants, which share the
body): select on a boolean condition. -/
def EvalCMove (cond t f : Value) : Except InterpErr Value := do
  return if (← cond.as_bool) then t else f

end Evaluator

/-! ## C++ string utilities used by the interpreter

`std::string::find`, `substr`, `find_first_not_of` / `find_last_not_of`,
and the number parsers `std::stoi` / `std::stoll` / `strtoll`.  Failure of
`stoi`/`stoll` (no digits, or out of range) is `none`; every call site
turns that into the exception behaviour of its C++ counterpart. -/

/-- `std::string::find(pat, 0)` on character lists (first match index). -/
def listFindSub (l pat : List Char) (i : Nat) : Option Nat :=
  if pat.isPrefixOf l then some i
  else
    match l with
    | [] => none
    | _ :: t => listFindSub t pat (i + 1)

/-- `std::string::find(pat)`. -/
def strFind (s pat : String) : Option Nat := listFindSub s.data pat.data 0

/-- `std::string::find(c, pos)`. -/
def strFindCharFrom (s : String) (c : Char) (pos : Nat) : Option Nat :=
  (listFindSub (s.data.drop pos) [c] 0).map (· + pos)

/-- `s.find(pat) != std::string::npos`. -/
def strContains (s pat : String) : Bool := (strFind s pat).isSome

/-- `std::string::substr(pos, len)` (clamped, as in C++). -/
def strSubstr (s : String) (pos len : Nat) : String :=
  ⟨(s.data.drop pos).take len⟩

/-- `std::string::substr(pos)` to the end. -/
def strSubstrFrom (s : String) (pos : Nat) : String := ⟨s.data.drop pos⟩

/-- `std::string::find_first_not_of(set)`. -/
def strFindFirstNotOf (s : String) (set : List Char) : Option Nat :=
  s.data.findIdx? (fun c => ¬ set.contains c)

/-- `std::string::find_last_not_of(set)`. -/
def strFindLastNotOf (s : String) (set : List Char) : Option Nat :=
  match (s.data.reverse.findIdx? (fun c => ¬ set.contains c)) with
  | none => none
  | some j => some (s.data.length - 1 - j)

/-- The whitespace set of the `" \t\n\r"` trims in `EvalParm`. -/
def trimSet : List Char := [' ', '\t', '\n', '\r']

/-- `isspace` as consulted by `std::stoi`. -/
def isSpaceChar (c : Char) : Bool :=
  c = ' ' ∨ c = '\t' ∨ c = '\n' ∨ c = '\r' ∨ c = '\x0b' ∨ c = '\x0c'

/-- Numeric value of a decimal-digit prefix. -/
def digitsValue (l : List Char) : Nat :=
  l.foldl (fun acc c => acc * 10 + (c.toNat - '0'.toNat)) 0

/-- Core of `std::stoi`-family parsing: skip `isspace`, optional sign, a
non-empty digit prefix (parsing stops at the first non-digit); `none` when
there is no digit (`std::invalid_argument`) or the value falls outside
`[lo, hi]` (`std::out_of_range`). -/
def stoiCore (s : String) (lo hi : Int) : Option Int :=
  let l := s.data.dropWhile isSpaceChar
  let (sign, l) : Int × List Char :=
    match l with
    | '+' :: t => (1, t)
    | '-' :: t => (-1, t)
    | _ => (1, l)
  let digits := l.takeWhile Char.isDigit
  if digits.isEmpty then none
  else
    let v : Int := sign * digitsValue digits
    if v < lo ∨ hi < v then none else some v

/-- `std::stoi`. -/
def stoiOpt (s : String) : Option Int := stoiCore s (-(2 ^ 31)) (2 ^ 31 - 1)

/-- `std::stoll`. -/
def stollOpt (s : String) : Option Int := stoiCore s (-(2 ^ 63)) (2 ^ 63 - 1)

/-- `strtoll(s, &end, 10)` as used by `PropAsI64`: the parse must consume
at least one character and reach the end of the string. -/
def strtollFull (s : String) : Option Int :=
  let l := s.data.dropWhile isSpaceChar
  let (sign, l') : Int × List Char :=
    match l with
    | '+' :: t => (1, t)
    | '-' :: t => (-1, t)
    | _ => (1, l)
  let digits := l'.takeWhile Char.isDigit
  if digits.isEmpty then none
  else if digits.length = l'.length then some (sign * digitsValue digits)
  else none

/-! ## Interpreter-side property and type-string helpers
(file-static functions of interpreter.cpp) -/

/-- `IsNonDataTypeString` (interpreter.cpp). -/
def IsNonDataTypeString (t : String) : Bool :=
  t = "control" ∨ t = "memory" ∨ t = "abIO" ∨ t = "return_address" ∨ t = "bottom"

/-- `IsDataTypeString` (interpreter.cpp): non-empty, not a known non-data
kind, and ending in `':'`. -/
def IsDataTypeString (t : String) : Bool :=
  if t.isEmpty then false
  else if IsNonDataTypeString t then false
  else t.back = ':'

/-- `PropIsTrue` (interpreter.cpp). -/
def PropIsTrue (n : Node) (key : String) : Bool :=
  match alistGet n.props key with
  | none => false
  | some (.pBool b) => b
  | some (.pI32 v) => v ≠ 0
  | some (.pI64 v) => v ≠ 0
  | some (.pStr s) => s = "true" ∨ s = "True" ∨ s = "1"

/-- `PropAsI64` (interpreter.cpp). -/
def PropAsI64 (n : Node) (key : String) : Option Int :=
  match alistGet n.props key with
  | none => none
  | some (.pI32 v) => some v
  | some (.pI64 v) => some v
  | some (.pStr s) => strtollFull s
  | some (.pBool _) => none

/-- `IsDataPhiNode` (interpreter.cpp): a `Phi` whose `type` property is
absent (hand-built graphs count as data) or a scalar data kind.  A
non-string `type` property would make the C++ `std::get<std::string>`
throw `std::bad_variant_access` (terminating the process, since every
caller treats this function as non-throwing); such nodes never arise from
the parser and are classified as non-data here. -/
def IsDataPhiNode (g : Graph) (oni : Option Nat) : Bool :=
  match oni with
  | none => false
  | some ni =>
    let n := g.node ni
    if n.opcode ≠ .kPhi then false
    else
      match alistGet n.props "type" with
      | none => true
      | some (.pStr t) =>
        if t = "memory" ∨ t = "control" ∨ t = "abIO" ∨ t = "return_address" then
          false
        else IsDataTypeString t
      | some _ => false

/-- `IsArithmetic` (interpreter.cpp). -/
def IsArithmetic (op : Opcode) : Bool :=
  op = .kAddI ∨ op = .kSubI ∨ op = .kMulI ∨ op = .kDivI ∨ op = .kModI ∨
  op = .kAbsI ∨ op = .kAddL ∨ op = .kSubL ∨ op = .kMulL ∨ op = .kDivL ∨
  op = .kModL ∨ op = .kAbsL ∨ op = .kConvI2L ∨ op = .kConvL2I

/-- `IsBitwise` (interpreter.cpp). -/
def IsBitwise (op : Opcode) : Bool :=
  op = .kAndI ∨ op = .kOrI ∨ op = .kXorI ∨ op = .kLShiftI ∨ op = .kRShiftI ∨
  op = .kURShiftI ∨ op = .kAndL ∨ op = .kOrL ∨ op = .kXorL ∨ op = .kLShiftL ∨
  op = .kRShiftL ∨ op = .kURShiftL

/-- `IsComparison` (interpreter.cpp). -/
def IsComparison (op : Opcode) : Bool :=
  op = .kCmpI ∨ op = .kCmpL ∨ op = .kCmpP ∨ op = .kCmpU ∨ op = .kCmpUL

instance {ε α : Type} [DecidableEq ε] [DecidableEq α] :
    DecidableEq (Except ε α) := fun a b =>
  match a, b with
  | .ok x, .ok y =>
    if h : x = y then isTrue (by rw [h])
    else isFalse (by intro hh; cases hh; exact h rfl)
  | .error x, .error y =>
    if h : x = y then isTrue (by rw [h])
    else isFalse (by intro hh; cases hh; exact h rfl)
  | .ok _, .error _ => isFalse (by intro hh; cases hh)
  | .error _, .ok _ => isFalse (by intro hh; cases hh)

/-! ## Interpreter state (the mutable members of `sun::Interpreter`)

`eval_depth_` is not part of the state: it is modelled by the explicit
fuel of `evalNode` (see the module comment). -/

/-- The per-execution mutable members of `Interpreter`
(interpreter.hpp), node pointers replaced by arena indices. -/
structure InterpState : Type where
  control_successors : List (Nat × List Nat)
  value_cache : List (Nat × Value)
  eval_active : List Nat
  region_predecessor : List (Nat × Nat)
  loop_iterations : List (Nat × Int)
  heap : ConcreteHeap
  in_phi_update : Bool
  updating_region : Option Nat
  phi_old_values : List (Nat × Value)
  updating_phi : Option Nat
  phi_update_active : List Nat
  phi_eval_stack : List Nat
  memory_chain_visited : List Nat
  deriving Repr, DecidableEq

/-- The evaluation monad: C++ member mutation under exceptions — state is
threaded *under* the error layer, so mutations before a `throw` persist
(exactly as in the source, where `heap_`, `value_cache_`, ... survive
stack unwinding). -/
abbrev EvalM := ExceptT InterpErr (StateM InterpState)

/-- Lift a pure `Except` computation (a call to a potentially throwing
stateless C++ function). -/
def liftE {α : Type} : Except InterpErr α → EvalM α
  | .ok a => pure a
  | .error e => throw e

/-- `Interpreter::kMaxEvalDepth`. -/
def kMaxEvalDepth : Nat := 2000

/-- `Interpreter::kMaxLoopIterations`. -/
def kMaxLoopIterations : Int := 100

/-- `kMaxControlSteps` (local constant of `ExecuteWithHeap`). -/
def kMaxControlSteps : Int := 100000

/-! ## Pure interpreter helpers -/

/-- `Interpreter::EvalConst` (interpreter.cpp): `ConI`/`ConL` from the
`value` property or the `" #int:v"`/`" #long:v"` `dump_spec` form
(everything after the first `':'` through `std::stoi`/`std::stoll`, whose
failure escapes as a fatal error); `ConP` is the null constant. -/
def evalConst (n : Node) : Except InterpErr Value :=
  match n.opcode with
  | .kConI =>
    if n.has_prop "value" then
      match n.propD "value" with
      | .pI32 v => .ok (Value.MakeI32 v)
      | _ => .error (.fatal "bad variant access: 'value' is not int32")
    else if n.has_prop "dump_spec" then
      match n.propD "dump_spec" with
      | .pStr spec =>
        match strFindCharFrom spec ':' 0 with
        | some colon =>
          match stoiOpt (strSubstrFrom spec (colon + 1)) with
          | some v => .ok (Value.MakeI32 v)
          | none => .error (.fatal "stoi")
        | none =>
          .error (.fatal "ConI node missing 'value' or parseable 'dump_spec' property")
      | _ => .error (.fatal "bad variant access: 'dump_spec' is not a string")
    else .error (.fatal "ConI node missing 'value' or parseable 'dump_spec' property")
  | .kConL =>
    if n.has_prop "value" then
      match n.propD "value" with
      | .pI64 v => .ok (Value.MakeI64 v)
      | _ => .error (.fatal "bad variant access: 'value' is not int64")
    else if n.has_prop "dump_spec" then
      match n.propD "dump_spec" with
      | .pStr spec =>
        match strFindCharFrom spec ':' 0 with
        | some colon =>
          match stollOpt (strSubstrFrom spec (colon + 1)) with
          | some v => .ok (Value.MakeI64 v)
          | none => .error (.fatal "stoll")
        | none =>
          .error (.fatal "ConL node missing 'value' or parseable 'dump_spec' property")
      | _ => .error (.fatal "bad variant access: 'dump_spec' is not a string")
    else .error (.fatal "ConL node missing 'value' or parseable 'dump_spec' property")
  | .kConP => .ok Value.MakeNull
  | _ => .error (.fatal "Unknown constant opcode")

/-- The three-way result of `EvalParm`'s `dump_spec` scan
(`"Parm<N>:"` extraction). -/
inductive ParmParse : Type where
  /-- No `"Parm"` or no following `':'` — fall through to the `type` check. -/
  | notFound
  /-- `std::stoi` threw on the extracted text (rethrown as
  `"Failed to parse Parm index from dump_spec: ..."`). -/
  | parseFail (spec num_str : String)
  /-- A parameter index was extracted. -/
  | parsed (idx : Int)
  deriving Repr, DecidableEq

/-- The `dump_spec` scan of `Interpreter::EvalParm`: trim the spec's
leading whitespace, locate `"Parm"`, the `':'` after it, take the text in
between, trim it, and run `std::stoi`. -/
def parmDumpSpecParse (spec0 : String) : ParmParse :=
  let spec :=
    match strFindFirstNotOf spec0 trimSet with
    | some start => strSubstrFrom spec0 start
    | none => spec0
  match strFind spec "Parm" with
  | none => .notFound
  | some parm_pos =>
    match strFindCharFrom spec ':' parm_pos with
    | none => .notFound
    | some colon_pos =>
      let num_str := strSubstr spec (parm_pos + 4) (colon_pos - parm_pos - 4)
      let num_str :=
        match strFindFirstNotOf num_str trimSet, strFindLastNotOf num_str trimSet with
        | some num_start, some num_end =>
          strSubstr num_str num_start (num_end - num_start + 1)
        | _, _ => num_str
      match stoiOpt num_str with
      | some idx => .parsed idx
      | none => .parseFail spec num_str

/-- `Interpreter::EvalParm` (interpreter.cpp): an in-range `index`
property binds the positional argument, an *out-of-range* `index`
property throws `"Parm index out of range"`; a `"Parm<N>:"` parsed out of
`dump_spec` binds the argument when in range but yields `Null` (with a
warning) when out of range; non-data `type`s yield `I32(0)`; otherwise
the node is rejected. -/
def evalParm (n : Node) (inputs : List Value) : Except InterpErr Value :=
  if n.has_prop "index" then
    match n.propD "index" with
    | .pI32 index =>
      if index < 0 ∨ (inputs.length : Int) ≤ index then
        .error (.fatal "Parm index out of range")
      else .ok (inputs.getD index.toNat Value.MakeNull)
    | _ => .error (.fatal "bad variant access: 'index' is not int32")
  else
    (if n.has_prop "dump_spec" then
      match n.propD "dump_spec" with
      | .pStr spec0 =>
        match parmDumpSpecParse spec0 with
        | .parsed index =>
          some (if index < 0 ∨ (inputs.length : Int) ≤ index then
              .ok Value.MakeNull
            else .ok (inputs.getD index.toNat Value.MakeNull))
        | .parseFail spec num_str =>
          some (.error (.fatal ("Failed to parse Parm index from dump_spec: " ++
            spec ++ " (extracted: '" ++ num_str ++ "')")))
        | .notFound => none
      | _ => some (.error (.fatal "bad variant access: 'dump_spec' is not a string"))
    else none).getD
    (if n.has_prop "type" then
      match n.propD "type" with
      | .pStr t =>
        if t = "control" ∨ t = "memory" ∨ t = "return_address" then
          .ok (Value.MakeI32 0)
        else .error (.fatal "Parm node missing 'index' or 'dump_spec' property")
      | _ => .error (.fatal "bad variant access: 'type' is not a string")
    else .error (.fatal "Parm node missing 'index' or 'dump_spec' property"))

/-- `Interpreter::SelectPhiInputNode` (interpreter.cpp): locate the
active predecessor's position among the Region's inputs (skipping holes
and the Region self-edge), try the dump-convention-dependent candidate
positions, and fall back to compacted counting. -/
def selectPhiInputNode (g : Graph) (phi : Nat) (active_pred : Nat)
    (allow_self : Bool) : Option Nat :=
  let n := g.node phi
  if n.opcode ≠ .kPhi then none
  else
    match n.region_input with
    | none => none
    | some ri =>
      let region := g.node ri
      if region.opcode ≠ .kRegion then none
      else
        let pred_index? := (List.range region.num_inputs).find? (fun i =>
          match region.inputD i with
          | none => false
          | some rin => rin ≠ ri ∧ rin = active_pred)
        match pred_index? with
        | none => none
        | some pred_index =>
          let phi_n := n.num_inputs
          let region_n := region.num_inputs
          let candidates : List Nat :=
            (if phi_n = region_n + 1 then [pred_index + 1] else []) ++
            (if phi_n = region_n then [if pred_index = 0 then 1 else pred_index] else []) ++
            [pred_index + 1, pred_index]
          let accept : Option Nat → Bool := fun v =>
            match v with
            | none => false
            | some vi => allow_self ∨ vi ≠ phi
          let fromCandidates :=
            candidates.findSome? (fun idx =>
              if idx < n.num_inputs ∧ accept (n.inputD idx) then n.inputD idx
              else none)
          match fromCandidates with
          | some v => some v
          | none =>
            -- compacted fallback: align the k-th non-self Region input
            -- with Phi input[1+k]
            let rec compacted : List Nat → Nat → Option Nat
              | [], _ => none
              | i :: rest, k =>
                match region.inputD i with
                | none => compacted rest k
                | some rin =>
                  if rin = ri then compacted rest k
                  else if rin = active_pred then
                    let idx := 1 + k
                    if idx < n.num_inputs ∧ accept (n.inputD idx) then n.inputD idx
                    else none
                  else compacted rest (k + 1)
            compacted (List.range region.num_inputs) 0

/-- The tri-state combine of `Interpreter::EvalCmpOp` (interpreter.cpp),
applied after both operands have been evaluated: `-1`/`0`/`1` for
less/equal/greater, signed (`CmpI`, `CmpL`), pointer (`CmpP`, `Null`
read as `0`) or unsigned (`CmpU`, `CmpUL`) as the opcode specifies, `I32`
operands widened for the `L` forms. -/
def cmpCombine (op : Opcode) (a b : Value) : Except InterpErr Value :=
  match op with
  | .kCmpI => do
    let av ← a.as_i32
    let bv ← b.as_i32
    if av < bv then return Value.MakeI32 (-1)
    else if bv < av then return Value.MakeI32 1
    else return Value.MakeI32 0
  | .kCmpL => do
    let a := Evaluator.WidenI32ToI64 a
    let b := Evaluator.WidenI32ToI64 b
    let av ← a.as_i64
    let bv ← b.as_i64
    if av < bv then return Value.MakeI32 (-1)
    else if bv < av then return Value.MakeI32 1
    else return Value.MakeI32 0
  | .kCmpP => do
    if ¬ a.is_ref ∧ ¬ a.is_null then
      throw (.fatal "CmpP expects ref or null for first operand")
    else if ¬ b.is_ref ∧ ¬ b.is_null then
      throw (.fatal "CmpP expects ref or null for second operand")
    else do
      let av ← if a.is_null then pure 0 else a.as_ref
      let bv ← if b.is_null then pure 0 else b.as_ref
      if av < bv then return Value.MakeI32 (-1)
      else if bv < av then return Value.MakeI32 1
      else return Value.MakeI32 0
  | .kCmpU => do
    let av := toU32 (← a.as_i32)
    let bv := toU32 (← b.as_i32)
    if av < bv then return Value.MakeI32 (-1)
    else if bv < av then return Value.MakeI32 1
    else return Value.MakeI32 0
  | .kCmpUL => do
    let a := Evaluator.WidenI32ToI64 a
    let b := Evaluator.WidenI32ToI64 b
    let av := toU64 (← a.as_i64)
    let bv := toU64 (← b.as_i64)
    if av < bv then return Value.MakeI32 (-1)
    else if bv < av then return Value.MakeI32 1
    else return Value.MakeI32 0
  | _ => .error (.fatal "Unsupported comparison opcode")

/-- The `dump_spec` → condition-code translation of
`Interpreter::EvalBool`: substring tests in source order (`le` before
`lt`, `ge` before `gt`, then `eq`, `ne`). -/
def maskFromDumpSpec (spec : String) : Int :=
  if strContains spec "le" then 3
  else if strContains spec "lt" then 1
  else if strContains spec "ge" then 6
  else if strContains spec "gt" then 4
  else if strContains spec "eq" then 2
  else if strContains spec "ne" then 5
  else 0

/-- Condition-code mask resolution of `Interpreter::EvalBool`: the `mask`
property if present, else parsed from `dump_spec`, else `0`. -/
def boolMaskOfNode (n : Node) : Except InterpErr Int :=
  if n.has_prop "mask" then
    match n.propD "mask" with
    | .pI32 m => .ok m
    | _ => .error (.fatal "bad variant access: 'mask' is not int32")
  else if n.has_prop "dump_spec" then
    match n.propD "dump_spec" with
    | .pStr spec => .ok (maskFromDumpSpec spec)
    | _ => .error (.fatal "bad variant access: 'dump_spec' is not a string")
  else .ok 0

/-- The final mask test of `Interpreter::EvalBool`: bit 0 = LT, bit 1 =
EQ, bit 2 = GT against the tri-state comparison value. -/
def boolOfMask (mask cmp_val : Int) : Bool :=
  if cmp_val < 0 ∧ Int.land mask 1 ≠ 0 then true
  else if cmp_val = 0 ∧ Int.land mask 2 ≠ 0 then true
  else if 0 < cmp_val ∧ Int.land mask 4 ≠ 0 then true
  else false

/-! ## Value evaluation (interpreter.cpp)

Each `EvalX` helper of the source becomes `evalXAux`, parameterized over
`ev`, the evaluator for child nodes.  `evalNode` ties the knot, passing
itself at one fuel less — matching `EvalNode`'s per-entry
`eval_depth_` increment. -/

/-- `EvalNode(nullptr)` — the null-pointer guard at the top of
`Interpreter::EvalNode`; call sites that can pass a null input dispatch
through this. -/
def evalNullNode {α : Type} : EvalM α :=
  throw (.fatal "EvalNode called with null node")

/-- `Interpreter::EvalArithOp`: unary ops (`AbsI/L`, `ConvI2L/L2I`) take
input 0, or input 1 when input 0 is a hole; binary ops take the first two
schema value inputs, `I32`s widened for `*L` ops. -/
def evalArithOpAux (g : Graph) (ev : Nat → EvalM Value) (ni : Nat) : EvalM Value := do
  let n := g.node ni
  let op := n.opcode
  if op = .kAbsI ∨ op = .kAbsL ∨ op = .kConvI2L ∨ op = .kConvL2I then
    let operand? : Option (Option Nat) :=
      if 2 ≤ n.num_inputs ∧ n.inputD 0 = none then some (n.inputD 1)
      else if 1 ≤ n.num_inputs then some (n.inputD 0)
      else none
    match operand? with
    | none => throw (.fatal "Unary op needs at least 1 input")
    | some none => evalNullNode
    | some (some oi) => do
      let a ← ev oi
      match op with
      | .kAbsI => liftE (Evaluator.EvalAbsI a)
      | .kAbsL => liftE (Evaluator.EvalAbsL a)
      | .kConvI2L => liftE (Evaluator.EvalConvI2L a)
      | .kConvL2I => liftE (Evaluator.EvalConvL2I a)
      | _ => throw (.fatal "Unsupported unary opcode")
  else
    match n.value_inputs with
    | v0 :: v1 :: _ => do
      let a ← ev v0
      let b ← ev v1
      let is_long_op :=
        op = .kAddL ∨ op = .kSubL ∨ op = .kMulL ∨ op = .kDivL ∨ op = .kModL ∨
        op = .kAndL ∨ op = .kOrL ∨ op = .kXorL ∨ op = .kLShiftL ∨
        op = .kRShiftL ∨ op = .kURShiftL
      let a := if is_long_op then Evaluator.WidenI32ToI64 a else a
      let b := if is_long_op then Evaluator.WidenI32ToI64 b else b
      match op with
      | .kAddI => liftE (Evaluator.EvalAddI a b)
      | .kSubI => liftE (Evaluator.EvalSubI a b)
      | .kMulI => liftE (Evaluator.EvalMulI a b)
      | .kDivI => liftE (Evaluator.EvalDivI a b)
      | .kModI => liftE (Evaluator.EvalModI a b)
      | .kAddL => liftE (Evaluator.EvalAddL a b)
      | .kSubL => liftE (Evaluator.EvalSubL a b)
      | .kMulL => liftE (Evaluator.EvalMulL a b)
      | .kDivL => liftE (Evaluator.EvalDivL a b)
      | .kModL => liftE (Evaluator.EvalModL a b)
      | .kAndI => liftE (Evaluator.EvalAndI a b)
      | .kOrI => liftE (Evaluator.EvalOrI a b)
      | .kXorI => liftE (Evaluator.EvalXorI a b)
      | .kLShiftI => liftE (Evaluator.EvalLShiftI a b)
      | .kRShiftI => liftE (Evaluator.EvalRShiftI a b)
      | .kURShiftI => liftE (Evaluator.EvalURShiftI a b)
      | .kAndL => liftE (Evaluator.EvalAndL a b)
      | .kOrL => liftE (Evaluator.EvalOrL a b)
      | .kXorL => liftE (Evaluator.EvalXorL a b)
      | .kLShiftL => liftE (Evaluator.EvalLShiftL a b)
      | .kRShiftL => liftE (Evaluator.EvalRShiftL a b)
      | .kURShiftL => liftE (Evaluator.EvalURShiftL a b)
      | _ => throw (.fatal "Unsupported arithmetic opcode")
    | _ => throw (.fatal "Binary op needs at least 2 value inputs")

/-- `Interpreter::EvalCmpOp`: evaluate the first two value inputs, then
the tri-state combine. -/
def evalCmpOpAux (g : Graph) (ev : Nat → EvalM Value) (ni : Nat) : EvalM Value := do
  let n := g.node ni
  match n.value_inputs with
  | v0 :: v1 :: _ => do
    let a ← ev v0
    let b ← ev v1
    liftE (cmpCombine n.opcode a b)
  | _ => throw (.fatal "Comparison op needs at least 2 value inputs")

/-- `Interpreter::EvalBool`: tri-state comparison result (must be `I32`)
against the node's condition-code mask. -/
def evalBoolAux (g : Graph) (ev : Nat → EvalM Value) (ni : Nat) : EvalM Value := do
  let n := g.node ni
  match n.value_inputs with
  | [] => throw (.fatal "Bool node needs comparison value input")
  | cmp_node :: _ => do
    let cmp_result ← ev cmp_node
    if ¬ cmp_result.is_i32 then
      throw (.fatal "Bool node expects i32 comparison result")
    else do
      let cmp_val ← liftE cmp_result.as_i32
      let mask ← liftE (boolMaskOfNode n)
      return Value.MakeBool (boolOfMask mask cmp_val)

/-- `Interpreter::EvalCMove`: boolean condition, lazily evaluate only the
selected branch. -/
def evalCMoveAux (g : Graph) (ev : Nat → EvalM Value) (ni : Nat) : EvalM Value := do
  let n := g.node ni
  match n.value_inputs with
  | v0 :: v1 :: v2 :: _ => do
    let cond ← ev v0
    if ¬ cond.is_bool then throw (.fatal "CMove condition must be boolean")
    else do
      let cb ← liftE cond.as_bool
      if cb then ev v1 else ev v2
  | _ => throw (.fatal "CMove needs 3 value inputs")

/-- `Interpreter::EvalConv2B`: `0`/null/`false` to `I32(0)`, anything
non-zero to `I32(1)`. -/
def evalConv2BAux (g : Graph) (ev : Nat → EvalM Value) (ni : Nat) : EvalM Value := do
  let n := g.node ni
  match n.value_inputs with
  | [] => throw (.fatal "Conv2B needs value input")
  | v0 :: _ => do
    let input ← ev v0
    match input with
    | .i32 x => return Value.MakeI32 (if x ≠ 0 then 1 else 0)
    | .i64 x => return Value.MakeI32 (if x ≠ 0 then 1 else 0)
    | .ref r => return Value.MakeI32 (if r ≠ 0 then 1 else 0)
    | .null => return Value.MakeI32 0
    | .b bb => return Value.MakeI32 (if bb then 1 else 0)

/-- `Interpreter::EvalNoOp` (SafePoint/Opaque1/ParsePredicate/Proj as
data): pass through the first value input, else `I32(0)`. -/
def evalNoOpAux (g : Graph) (ev : Nat → EvalM Value) (ni : Nat) : EvalM Value := do
  match (g.node ni).value_inputs with
  | v0 :: _ => ev v0
  | [] => return Value.MakeI32 0

/-- `Interpreter::EvalCallStaticJava`: `uncommon_trap` is an assumed
non-firing no-op (`I32(0)`); a real call is unsupported. -/
def evalCallStaticJavaAux (n : Node) : Except InterpErr Value :=
  if n.has_prop "dump_spec" then
    match n.propD "dump_spec" with
    | .pStr spec =>
      if strContains spec "uncommon_trap" then .ok (Value.MakeI32 0)
      else .error (.fatal "CallStaticJava: real method calls not supported in prototype")
    | _ => .error (.fatal "bad variant access: 'dump_spec' is not a string")
  else .error (.fatal "CallStaticJava: real method calls not supported in prototype")

/-- `Interpreter::EvalAllocate`: fresh object reference from the heap. -/
def evalAllocateAux : EvalM Value := do
  let st ← get
  let (r, h) := st.heap.AllocateObject
  set { st with heap := h }
  return Value.MakeRef r

/-- `Interpreter::EvalAllocateArray`: evaluate the length input (must be
`I32`); a negative length throws `EvalException("Negative array length")`
(the only heap-side trap that is a `Throw`). -/
def evalAllocateArrayAux (g : Graph) (ev : Nat → EvalM Value) (ni : Nat) : EvalM Value := do
  let n := g.node ni
  if n.num_inputs < 2 then throw (.fatal "AllocateArray needs length input")
  else do
    let len_val ← (match n.inputD 1 with
      | none => evalNullNode
      | some li => ev li)
    if ¬ len_val.is_i32 then throw (.fatal "Array length must be i32")
    else do
      let length ← liftE len_val.as_i32
      if length < 0 then throw (.evalExc "Negative array length")
      else do
        let st ← get
        match st.heap.AllocateArray length with
        | .error e => throw e
        | .ok (r, h) => do
          set { st with heap := h }
          return Value.MakeRef r

/-- The probing loop of the `LoadRange` arm of `Interpreter::EvalNode`:
scan inputs `1..` for a non-`Parm` input whose evaluation succeeds with a
reference; evaluation failures are swallowed (`catch (...) continue`). -/
def loadRangeProbe (g : Graph) (ev : Nat → EvalM Value) :
    List (Option Nat) → EvalM (Option Nat)
  | [] => pure none
  | inp :: rest => do
    match inp with
    | some i =>
      if (g.node i).opcode ≠ .kParm then do
        let found ← tryCatch
          (do
            let v ← ev i
            pure (if v.is_ref then some i else none))
          (fun _ => pure none)
        match found with
        | some j => pure (some j)
        | none => loadRangeProbe g ev rest
      else loadRangeProbe g ev rest
    | none => loadRangeProbe g ev rest

/-- The `LoadRange` arm of `Interpreter::EvalNode`: probe for the array
reference input (falling back to input 2), then `heap.ArrayLength`. -/
def evalLoadRangeAux (g : Graph) (ev : Nat → EvalM Value) (ni : Nat) : EvalM Value := do
  let n := g.node ni
  let probed ← loadRangeProbe g ev ((n.inputs.drop 1).take (n.num_inputs - 1))
  let arr_node : Option Nat ←
    (match probed with
     | some i => pure (some i)
     | none =>
       if 2 < n.num_inputs then pure (n.inputD 2) else pure none)
  match arr_node with
  | none => throw (.fatal "LoadRange: could not find array input")
  | some ai => do
    let arr_val ← ev ai
    if ¬ arr_val.is_ref then
      throw (.fatal "LoadRange: array input is not a reference")
    else do
      let r ← liftE arr_val.as_ref
      let st ← get
      let length ← liftE (st.heap.ArrayLength r)
      return Value.MakeI32 length

/-- The `RangeCheck`-as-value arm of `Interpreter::EvalNode`: evaluate
`input(1)` (length) and `input(2)` (index), fail fatally outside
`[0, length)` (note: a plain `std::runtime_error`, with the offending
numbers in the message), else pass the index through. -/
def evalRangeCheckAux (g : Graph) (ev : Nat → EvalM Value) (ni : Nat) : EvalM Value := do
  let n := g.node ni
  let length_node ← liftE (n.inputChecked 1)
  let index_node ← liftE (n.inputChecked 2)
  match length_node, index_node with
  | some li, some ii => do
    let length_val ← ev li
    let index_val ← ev ii
    let length ← liftE length_val.as_i32
    let index ← liftE index_val.as_i32
    if index < 0 ∨ length ≤ index then
      throw (.fatal ("Array index out of bounds: index=" ++ toString index ++
        ", length=" ++ toString length))
    else return index_val
  | _, _ => throw (.fatal "RangeCheck: missing length or index input")

/-- The `AddP` arm of `Interpreter::EvalNode`: pass through the first
non-hole, non-`Parm` input after the base; fall back to input 1, then to
`I32(0)`. -/
def evalAddPAux (g : Graph) (ev : Nat → EvalM Value) (ni : Nat) : EvalM Value := do
  let n := g.node ni
  let cand : Option Nat :=
    (((n.inputs.drop 1).take (n.num_inputs - 1)).filterMap (fun o => o)).find?
      (fun i => (g.node i).opcode ≠ .kParm)
  let input_node : Option Nat :=
    match cand with
    | some i => some i
    | none => if 1 < n.num_inputs then n.inputD 1 else none
  match input_node with
  | some i => ev i
  | none => return Value.MakeI32 0

mutual

/-- The recursive `extract_index` lambda of the `AddP` array-load path
(interpreter.cpp): pull an `i32` index out of a
`LShift(ConvI2L(index), scale)`-shaped address computation, recursing
through nested `AddP`s, finally trying to evaluate the node itself.  The
C++ recursion is bounded only by the shape of the (finite) address
expression; the fuel here starts at `g.nodes.length + 1` per `Load` and
cannot run out on graphs whose address chains do not revisit nodes. -/
def extractIndexAux (g : Graph) (ev : Nat → EvalM Value) :
    Nat → Option Nat → EvalM (Option Int)
  | _, none => pure none
  | 0, some _ => throw (.fatal "extract_index recursion fuel exhausted")
  | cf + 1, some ni => do
    let n := g.node ni
    let op := n.opcode
    let shiftRes : Option Int ←
      (if (op = .kLShiftL ∨ op = .kLShiftI) ∧ 2 ≤ n.num_inputs then do
        let val := n.inputD 1
        let convRes : Option Int ←
          (match val with
           | some vi =>
             if (g.node vi).opcode = .kConvI2L ∧ 2 ≤ (g.node vi).num_inputs then do
               let idx ← (match (g.node vi).inputD 1 with
                 | none => evalNullNode
                 | some wi => ev wi)
               pure (match idx with | .i32 x => some x | _ => none)
             else pure none
           | none => pure none)
        match convRes with
        | some x => pure (some x)
        | none => do
          let idx ← (match val with
            | none => evalNullNode
            | some vi => ev vi)
          pure (match idx with | .i32 x => some x | _ => none)
      else pure none)
    match shiftRes with
    | some x => pure (some x)
    | none => do
      let addpRes : Option Int ←
        (if op = .kAddP then
          extractIndexList g ev cf ((List.range n.num_inputs).drop 1) ni
        else pure none)
      match addpRes with
      | some x => pure (some x)
      | none => do
        let v ← ev ni
        pure (match v with | .i32 x => some x | _ => none)

/-- The `for` loop of `extract_index`'s `AddP` case: try each input
`1..` in turn. -/
def extractIndexList (g : Graph) (ev : Nat → EvalM Value) :
    Nat → List Nat → Nat → EvalM (Option Int)
  | _, [], _ => pure none
  | cf, i :: rest, ni => do
    match ← extractIndexAux g ev cf ((g.node ni).inputD i) with
    | some x => pure (some x)
    | none => extractIndexList g ev cf rest ni

end

/-- `Interpreter::EvalStore`: resolve the base reference, then either
`WriteArray` (the `array` property is set: input 3 = index, input 4 =
value) or `WriteField` (the `field` property names the slot, input 3 =
value). -/
def evalStoreAux (g : Graph) (ev : Nat → EvalM Value) (ni : Nat) : EvalM Unit := do
  let n := g.node ni
  if n.num_inputs < 4 then
    throw (.fatal "Store needs at least control, memory, base, value")
  else do
    let base_val ← (match n.inputD 2 with
      | none => evalNullNode
      | some bi => ev bi)
    if ¬ base_val.is_ref then throw (.fatal "Store base must be a reference")
    else do
      let base ← liftE base_val.as_ref
      let is_array ←
        (if n.has_prop "array" then
          match n.propD "array" with
          | .pBool bb => pure bb
          | _ => throw (.fatal "bad variant access: 'array' is not bool")
        else pure false)
      if is_array then
        if n.num_inputs < 5 then throw (.fatal "Array store needs index and value")
        else do
          let idx_val ← (match n.inputD 3 with
            | none => evalNullNode
            | some ii => ev ii)
          if ¬ idx_val.is_i32 then throw (.fatal "Array index must be i32")
          else do
            let index ← liftE idx_val.as_i32
            let value ← (match n.inputD 4 with
              | none => evalNullNode
              | some vi => ev vi)
            let st ← get
            let h ← liftE (st.heap.WriteArray base index value)
            set { st with heap := h }
      else
        if ¬ n.has_prop "field" then throw (.fatal "Store needs field property")
        else do
          let field ← (match n.propD "field" with
            | .pStr f => pure f
            | _ => throw (.fatal "bad variant access: 'field' is not a string"))
          let value ← (match n.inputD 3 with
            | none => evalNullNode
            | some vi => ev vi)
          modify fun st => { st with heap := st.heap.WriteField base field value }

/-- `Interpreter::ProcessMemoryChain`: walk a Load's memory input chain,
executing every Store found before recursing into its own memory
predecessor; `memory_chain_visited_` guards against memory-Phi cycles.
The chain fuel starts at `g.nodes.length + 1` per `Load`; since the
visited set grows by one node per recursive step, it cannot run out when
the chain stays inside the graph. -/
def processMemoryChainAux (g : Graph) (ev : Nat → EvalM Value) :
    Nat → Option Nat → EvalM Unit
  | _, none => pure ()
  | 0, some _ => throw (.fatal "memory chain fuel exhausted")
  | cf + 1, some mi => do
    let st ← get
    if st.memory_chain_visited.contains mi then pure ()
    else do
      modify fun s => { s with memory_chain_visited := mi :: s.memory_chain_visited }
      let m := g.node mi
      let op := m.opcode
      if op = .kStoreB ∨ op = .kStoreC ∨ op = .kStoreI ∨ op = .kStoreL ∨
          op = .kStoreP ∨ op = .kStoreN then
        evalStoreAux g ev mi
      if 2 ≤ m.num_inputs then
        processMemoryChainAux g ev cf (m.inputD 1)
      else pure ()

/-- `Interpreter::EvalLoad`: replay the memory chain, resolve the base
reference, decide array-versus-field access (the `array` property, an
array-typed `dump_spec`, or an `AddP` address), and read from the heap
(`ReadArray` out-of-bounds escapes as the fatal
`"Array index out of bounds"`). -/
def evalLoadAux (g : Graph) (ev : Nat → EvalM Value) (ni : Nat) : EvalM Value := do
  let n := g.node ni
  if n.num_inputs < 3 then
    throw (.fatal "Load needs at least control, memory, and base")
  else do
    modify fun s => { s with memory_chain_visited := [] }
    processMemoryChainAux g ev (g.nodes.length + 1) (n.inputD 1)
    let base_val ← (match n.inputD 2 with
      | none => evalNullNode
      | some bi => ev bi)
    if ¬ base_val.is_ref then throw (.fatal "Load base must be a reference")
    else do
      let base ← liftE base_val.as_ref
      let is_array : Bool ←
        (if n.has_prop "array" then
          match n.propD "array" with
          | .pBool bb => pure bb
          | _ => throw (.fatal "bad variant access: 'array' is not bool")
        else if n.has_prop "dump_spec" then
          match n.propD "dump_spec" with
          | .pStr spec => pure (strContains spec "[")
          | _ => throw (.fatal "bad variant access: 'dump_spec' is not a string")
        else if 3 ≤ n.num_inputs then
          pure (match n.inputD 2 with
            | some ai => (g.node ai).opcode = .kAddP
            | none => false)
        else pure false)
      if is_array then
        if 4 ≤ n.num_inputs then do
          let idx_val ← (match n.inputD 3 with
            | none => evalNullNode
            | some ii => ev ii)
          if ¬ idx_val.is_i32 then throw (.fatal "Array index must be i32")
          else do
            let index ← liftE idx_val.as_i32
            let st ← get
            liftE (st.heap.ReadArray base index)
        else if n.num_inputs = 3 ∧
            (match n.inputD 2 with
             | some ai => decide ((g.node ai).opcode = .kAddP)
             | none => false) = true then do
          match n.inputD 2 with
          | none => evalNullNode
          | some addp_i => do
            let addp := g.node addp_i
            if addp.num_inputs < 3 then
              throw (.fatal "AddP for array access needs at least 3 inputs")
            else do
              let actual_base ← (match addp.inputD 1 with
                | none => evalNullNode
                | some bi => ev bi)
              if ¬ actual_base.is_ref then
                throw (.fatal "AddP base must be array reference")
              else do
                let idx? ← extractIndexAux g ev (g.nodes.length + 1) (some addp_i)
                match idx? with
                | none =>
                  throw (.fatal "Could not extract i32 array index from AddP address computation")
                | some index => do
                  let ab ← liftE actual_base.as_ref
                  let st ← get
                  liftE (st.heap.ReadArray ab index)
        else throw (.fatal "Array load structure not recognized")
      else
        if ¬ n.has_prop "field" then throw (.fatal "Load needs field property")
        else do
          let field ← (match n.propD "field" with
            | .pStr f => pure f
            | _ => throw (.fatal "bad variant access: 'field' is not a string"))
          let st ← get
          return st.heap.ReadField base field

/-- `Interpreter::EvalPhi`: snapshot reads while the Phi's Region is
being updated (simultaneous-update semantics for mutually dependent loop
Phis), otherwise predecessor-aligned input selection via
`SelectPhiInputNode`; the `ActivePhiGuard` marks the Phi being updated so
that a recursive self-read resolves to the snapshot.  (The source's
`PhiStackGuard` is scoped to the `if` block that creates it, so the
insertion into `phi_eval_stack_` is undone immediately; the membership
test it guards can therefore never fire, and the net state effect is
nil — mirrored faithfully below.) -/
def evalPhiAux (g : Graph) (ev : Nat → EvalM Value) (ni : Nat) : EvalM Value := do
  let st0 ← get
  let n := g.node ni
  let in_update_for_this_region :=
    st0.in_phi_update ∧ st0.updating_region.isSome ∧
    n.region_input = st0.updating_region
  if ¬ in_update_for_this_region ∧ st0.phi_eval_stack.contains ni then
    throw (.fatal ("Cyclic Phi evaluation detected (phi=" ++ toString n.id ++ ")"))
  else do
    let old? : Option Value :=
      if in_update_for_this_region then
        match alistGet st0.phi_old_values ni with
        | some old =>
          if st0.updating_phi ≠ some ni ∨ st0.phi_update_active.contains ni then
            some old
          else none
        | none => none
      else none
    match old? with
    | some old => return old
    | none => do
      let okRegion : Bool :=
        match n.region_input with
        | some ri => decide ((g.node ri).opcode = .kRegion)
        | none => false
      if ¬ okRegion then
        match n.phi_values with
        | [] => throw (.fatal "Phi node has no value inputs")
        | v0 :: _ => ev v0
      else do
        let ri := n.region_input.getD 0
        match alistGet st0.region_predecessor ri with
        | none =>
          match n.phi_values with
          | [] => throw (.fatal "Phi node has no value inputs")
          | v0 :: _ => ev v0
        | some active_pred => do
          let allow_self := in_update_for_this_region
          match selectPhiInputNode g ni active_pred allow_self with
          | none =>
            throw (.fatal ("Phi node: could not select input (phi=" ++
              toString n.id ++ ", region=" ++ toString (g.node ri).id ++
              ", active_pred=" ++ toString (g.node active_pred).id ++ ")"))
          | some sel =>
            if ¬ allow_self ∧ sel = ni then
              throw (.fatal ("Phi node: selected self reference outside update mode (phi=" ++
                toString n.id ++ ")"))
            else do
              let guard_active :=
                st0.in_phi_update ∧ st0.updating_region.isSome ∧
                n.region_input = st0.updating_region ∧ st0.updating_phi = some ni
              if guard_active then do
                modify fun s => { s with phi_update_active := ni :: s.phi_update_active }
                let r ← tryCatch (ev sel) (fun e => do
                  modify fun s =>
                    { s with phi_update_active := s.phi_update_active.erase ni }
                  throw e)
                modify fun s =>
                  { s with phi_update_active := s.phi_update_active.erase ni }
                return r
              else ev sel

/-- The body of `Interpreter::EvalNode` (interpreter.cpp): snapshot
reads of loop Phis under a back-edge update, cyclic-evaluation detection
(`eval_active_`), the recursion-depth guard (`ev?` is `none` exactly when
`eval_depth_` would exceed `kMaxEvalDepth` on entry), the control-as-data
schema check, the memoization cache, the big opcode dispatch, and the
cache store (skipped by the early-returning `Parm` arm).  `ev?` carries
the evaluator for child nodes (one depth level down). -/
def evalNodeBody (g : Graph) (ev? : Option (Nat → EvalM Value)) (ni : Nat) :
    EvalM Value := do
    let st0 ← get
    let n := g.node ni
    -- loop back-edge snapshot reads come before every guard
    let old? : Option Value :=
      if st0.in_phi_update ∧ st0.updating_region.isSome ∧ n.opcode = .kPhi ∧
          n.region_input = st0.updating_region then
        match alistGet st0.phi_old_values ni with
        | some old =>
          if st0.updating_phi ≠ some ni ∨ st0.phi_update_active.contains ni then
            some old
          else none
        | none => none
      else none
    match old? with
    | some old => return old
    | none => do
      if st0.eval_active.contains ni then
        throw (.fatal ("Cyclic value evaluation detected (node=" ++
          toString n.id ++ ", op=" ++ OpcodeToString n.opcode ++ ")"))
      else do
        -- EvalActiveGuard: insert now, erase on every exit below
        modify fun s => { s with eval_active := ni :: s.eval_active }
        let res ← tryCatch
          (match ev? with
            | none =>
              throw (.fatal ("Value evaluation exceeded max depth (" ++
                toString kMaxEvalDepth ++ ")"))
            | some ev => do
              let s := n.schema
              if s = .kS1_Control ∨ s = .kS7_Start then
                throw (.fatal ("Attempted to evaluate control node as data: " ++
                  OpcodeToString n.opcode ++ " (node " ++ toString n.id ++ ")"))
              else do
                match alistGet (← get).value_cache ni with
                | some v => pure v
                | none => do
                  let op := n.opcode
                  if op = .kConI ∨ op = .kConL ∨ op = .kConP then do
                    let result ← liftE (evalConst n)
                    modify fun s =>
                      { s with value_cache := alistSet s.value_cache ni result }
                    pure result
                  else if op = .kParm then
                    -- non-data Parm reached during evaluation: dummy value,
                    -- returned without caching (early return in the source)
                    pure (Value.MakeI32 0)
                  else do
                    let result ←
                      if op = .kBool then evalBoolAux g ev ni
                      else if op = .kConv2B then evalConv2BAux g ev ni
                      else if op = .kCastII ∨ op = .kCastLL ∨ op = .kCastPP ∨
                          op = .kCastX2P ∨ op = .kCastP2X then do
                        let input_node ← liftE (n.inputChecked 1)
                        match input_node with
                        | none => throw (.fatal "Cast operation missing input")
                        | some ii => ev ii
                      else if op = .kCMoveI ∨ op = .kCMoveL ∨ op = .kCMoveP then
                        evalCMoveAux g ev ni
                      else if op = .kPhi then
                        if ¬ IsDataPhiNode g (some ni) then pure (Value.MakeI32 0)
                        else evalPhiAux g ev ni
                      else if op = .kSafePoint ∨ op = .kOpaque1 ∨
                          op = .kParsePredicate then evalNoOpAux g ev ni
                      else if op = .kProj then evalNoOpAux g ev ni
                      else if op = .kThreadLocal then pure Value.MakeNull
                      else if op = .kCallStaticJava then
                        liftE (evalCallStaticJavaAux n)
                      else if op = .kHalt then
                        throw (.fatal "Program reached Halt node (abnormal termination)")
                      else if op = .kAllocate then evalAllocateAux
                      else if op = .kAllocateArray then evalAllocateArrayAux g ev ni
                      else if op = .kLoadRange then evalLoadRangeAux g ev ni
                      else if op = .kRangeCheck then evalRangeCheckAux g ev ni
                      else if op = .kAddP then evalAddPAux g ev ni
                      else if op = .kLoadB ∨ op = .kLoadUB ∨ op = .kLoadS ∨
                          op = .kLoadUS ∨ op = .kLoadI ∨ op = .kLoadL ∨
                          op = .kLoadP ∨ op = .kLoadN then evalLoadAux g ev ni
                      else if IsArithmetic op ∨ IsBitwise op then
                        evalArithOpAux g ev ni
                      else if IsComparison op then evalCmpOpAux g ev ni
                      else
                        throw (.fatal ("Unsupported opcode: " ++
                          OpcodeToString n.opcode))
                    modify fun s =>
                      { s with value_cache := alistSet s.value_cache ni result }
                    pure result)
          (fun e => do
            modify fun s => { s with eval_active := s.eval_active.erase ni }
            throw e)
        modify fun s => { s with eval_active := s.eval_active.erase ni }
        return res

/-- `Interpreter::EvalNode`, fuel-indexed: the fuel is the remaining
headroom of the `eval_depth_` guard (see the module comment); children
are evaluated one fuel level down.  Defined through `Nat.rec` so that
concrete executions compute by kernel reduction. -/
def evalNode (g : Graph) (fuel : Nat) : Nat → EvalM Value :=
  Nat.rec (evalNodeBody g none) (fun _ ih => evalNodeBody g (some ih)) fuel

/-! ## Phi merge engine (UpdateRegionPhis) and control stepping -/

/-- `Interpreter::UpdateRegionPhis` (interpreter.cpp).  Back-edge mode:
snapshot the cached value of every data Phi of the Region into
`phi_old_values`, enter update mode, prune the cache down to
constants/`Parm`s, recompute each data Phi against the snapshots, install
all the new values only after the loop, prune again (now also keeping
Phis), and leave update mode. -/
def updateRegionPhis (g : Graph) (ri : Nat) (is_back_edge : Bool) : EvalM Unit := do
  if (g.node ri).opcode ≠ .kRegion then pure ()
  else do
    if is_back_edge then do
      modify fun s =>
        { s with phi_old_values := [], in_phi_update := true,
                 updating_region := some ri, updating_phi := none }
      let st ← get
      let snap := (List.range g.nodes.length).foldl (fun acc i =>
        let n := g.node i
        if n.opcode = .kPhi ∧ n.region_input = some ri ∧ IsDataPhiNode g (some i) then
          match alistGet st.value_cache i with
          | some v => acc ++ [(i, v)]
          | none => acc
        else acc) []
      modify fun s => { s with phi_old_values := snap }
      -- clear cached computed values, keeping constants and parameters
      modify fun s =>
        { s with value_cache := s.value_cache.filter (fun kv =>
            let vop := (g.node kv.1).opcode
            vop = .kConI ∨ vop = .kConL ∨ vop = .kConP ∨ vop = .kParm) }
    let phis := (List.range g.nodes.length).filter (fun i =>
      (g.node i).opcode = .kPhi ∧ (g.node i).region_input = some ri ∧
      IsDataPhiNode g (some i))
    let new_phi_values ← phis.foldlM (fun acc pi => do
      modify fun s => { s with updating_phi := some pi }
      let v ← evalPhiAux g (evalNode g kMaxEvalDepth) pi
      pure (acc ++ [(pi, v)])) ([] : List (Nat × Value))
    modify fun s => { s with updating_phi := none }
    -- install new Phi seeds
    modify fun s =>
      { s with value_cache :=
          new_phi_values.foldl (fun c kv => alistSet c kv.1 kv.2) s.value_cache }
    -- prune_cache_keep_seeds: constants, parameters and Phis survive
    modify fun s =>
      { s with value_cache := s.value_cache.filter (fun kv =>
          let vop := (g.node kv.1).opcode
          vop = .kConI ∨ vop = .kConL ∨ vop = .kConP ∨ vop = .kParm ∨
          vop = .kPhi) }
    if is_back_edge then
      modify fun s =>
        { s with in_phi_update := false, updating_region := none,
                 phi_old_values := [], phi_update_active := [] }
    else pure ()

/-- The successor-ranking priority of `FindControlSuccessor`. -/
def succPriority (op : Opcode) : Int :=
  match op with
  | .kReturn => 0
  | .kHalt => 1000
  | .kIf | .kParsePredicate | .kRangeCheck => 2
  | .kIfTrue | .kIfFalse => 3
  | .kGoto => 4
  | .kRegion => 5
  | .kSafePoint | .kCallStaticJava | .kProj => 6
  | .kParm => 7
  | _ => 100

/-- The 6-tuple score of `FindControlSuccessor` (smaller is better):
priority, `is_block_start`, `is_block_proj`, `bci` forward progress,
`idx` forward progress, node id. -/
structure SuccScore : Type where
  prio : Int
  bs : Int
  bp : Int
  bci_delta : Int
  idx_delta : Int
  nid : Int
  deriving Repr, DecidableEq

/-- `std::tuple` lexicographic `<` on scores. -/
def succScoreLt (a b : SuccScore) : Bool :=
  if a.prio ≠ b.prio then a.prio < b.prio
  else if a.bs ≠ b.bs then a.bs < b.bs
  else if a.bp ≠ b.bp then a.bp < b.bp
  else if a.bci_delta ≠ b.bci_delta then a.bci_delta < b.bci_delta
  else if a.idx_delta ≠ b.idx_delta then a.idx_delta < b.idx_delta
  else a.nid < b.nid

/-- The score lambda of `FindControlSuccessor`. -/
def succScore (g : Graph) (ctrl_idx ctrl_bci : Option Int) (s : Nat) : SuccScore :=
  let n := g.node s
  let s_idx := PropAsI64 n "idx"
  let s_bci := PropAsI64 n "bci"
  let idx_delta : Int :=
    match ctrl_idx, s_idx with
    | some ci, some si => if ci ≤ si then si - ci else 2 ^ 60 + (ci - si)
    | _, _ => 2 ^ 60
  let bci_delta : Int :=
    match ctrl_bci, s_bci with
    | some cb, some sb => if cb ≤ sb then sb - cb else 2 ^ 50 + (cb - sb)
    | _, _ => 2 ^ 50
  { prio := succPriority n.opcode
    bs := if PropIsTrue n "is_block_start" then 0 else 1
    bp := if PropIsTrue n "is_block_proj" then 0 else 1
    bci_delta := bci_delta
    idx_delta := idx_delta
    nid := n.id }

/-- `std::min_element`: the first element attaining the minimum (the
running best is replaced only on a strictly smaller score). -/
def minByScore (score : Nat → SuccScore) : List Nat → Option Nat
  | [] => none
  | x :: rest =>
    some (rest.foldl (fun best s => if succScoreLt (score s) (score best) then s else best) x)

/-- The control-candidate filter of `FindControlSuccessor` (a `Parm`
counts only with `type = "control"`). -/
def isControlCandidate (g : Graph) (s : Nat) : Bool :=
  let n := g.node s
  let op := n.opcode
  if op = .kRegion ∨ op = .kIf ∨ op = .kIfTrue ∨ op = .kIfFalse ∨
      op = .kGoto ∨ op = .kReturn ∨ op = .kHalt ∨ op = .kSafePoint ∨
      op = .kParsePredicate ∨ op = .kCallStaticJava ∨ op = .kProj ∨
      op = .kRangeCheck then true
  else if op = .kParm ∧ n.has_prop "type" then
    match n.propD "type" with
    | .pStr t => t = "control"
    | _ => false
  else false

/-- `Interpreter::FindControlSuccessor`: among the precomputed
successors, filter to control candidates; a unique candidate wins, ties
are broken by the score; the chosen `Region`'s active predecessor is
recorded. -/
def findControlSuccessor (g : Graph) (ci : Nat) : EvalM (Option Nat) := do
  let st ← get
  match alistGet st.control_successors ci with
  | none => pure none
  | some succs =>
    let candidates := succs.filter (isControlCandidate g)
    match candidates with
    | [] => pure none
    | [c] => do
      if (g.node c).opcode = .kRegion then
        modify fun s =>
          { s with region_predecessor := alistSet s.region_predecessor c ci }
      pure (some c)
    | _ => do
      let ctrl_idx := PropAsI64 (g.node ci) "idx"
      let ctrl_bci := PropAsI64 (g.node ci) "bci"
      match minByScore (succScore g ctrl_idx ctrl_bci) candidates with
      | none => pure none
      | some chosen => do
        if (g.node chosen).opcode = .kRegion then
          modify fun s =>
            { s with region_predecessor := alistSet s.region_predecessor chosen ci }
        pure (some chosen)

/-- The branch selection shared by the `If`/`ParsePredicate` and
`RangeCheck` arms of `StepControl`: evaluate the condition (boolean, or
int treated as non-zero), then pick the matching
`IfTrue`/`IfFalse` successor. -/
def stepBranch (g : Graph) (ci : Nat) (needMsg condMsg noSuccMsg : String) :
    EvalM (Option Nat) := do
  let n := g.node ci
  match n.value_inputs with
  | [] => throw (.fatal needMsg)
  | v0 :: _ => do
    let cond ← evalNode g kMaxEvalDepth v0
    let branch_taken : Bool ←
      if cond.is_bool then liftE cond.as_bool
      else if cond.is_i32 then do
        let x ← liftE cond.as_i32
        pure (decide (x ≠ 0))
      else throw (.fatal condMsg)
    let st ← get
    let found : Option Nat :=
      match alistGet st.control_successors ci with
      | none => none
      | some succs =>
        succs.find? (fun s =>
          (branch_taken ∧ (g.node s).opcode = Opcode.kIfTrue) ∨
          (¬ branch_taken ∧ (g.node s).opcode = Opcode.kIfFalse))
    match found with
    | some s => pure (some s)
    | none => throw (.fatal noSuccMsg)

/-- `Interpreter::StepControl` (interpreter.cpp): one control-flow step
from `ci`; `none` is the source's null return ("no successor"). -/
def stepControl (g : Graph) (ci : Nat) : EvalM (Option Nat) := do
  let n := g.node ci
  match n.opcode with
  | .kStart | .kGoto | .kIfTrue | .kIfFalse | .kParm | .kSafePoint
  | .kProj | .kCallStaticJava =>
    findControlSuccessor g ci
  | .kIf =>
    stepBranch g ci "If node needs condition value input"
      "If condition must be boolean or int" "If node has no IfTrue/IfFalse successors"
  | .kParsePredicate =>
    stepBranch g ci "ParsePredicate node needs condition value input"
      "If condition must be boolean or int" "If node has no IfTrue/IfFalse successors"
  | .kRangeCheck =>
    stepBranch g ci "RangeCheck node needs Bool condition input"
      "RangeCheck condition must be boolean or int"
      "RangeCheck node has no IfTrue/IfFalse successors"
  | .kRegion => do
    let has_data_phi := (List.range g.nodes.length).any (fun i =>
      IsDataPhiNode g (some i) ∧ (g.node i).region_input = some ci)
    if has_data_phi then do
      let st ← get
      match alistGet st.loop_iterations ci with
      | none => do
        -- first visit: seed the Phis for the entry predecessor
        modify fun s =>
          { s with loop_iterations := alistSet s.loop_iterations ci 0 }
        updateRegionPhis g ci false
      | some iter_count => do
        if kMaxLoopIterations ≤ iter_count then
          throw (.fatal ("Loop exceeded maximum iterations (" ++
            toString kMaxLoopIterations ++ ")"))
        else do
          modify fun s =>
            { s with loop_iterations := alistSet s.loop_iterations ci (iter_count + 1) }
          updateRegionPhis g ci true
    else pure ()
    findControlSuccessor g ci
  | .kHalt =>
    throw (.fatal ("Reached Halt control node (likely uncommon trap): node " ++
      toString n.id))
  | _ =>
    throw (.fatal ("Unexpected control opcode in StepControl: " ++
      OpcodeToString n.opcode))

/-! ## Control-successor adjacency and execution -/

/-- Append an edge `pred → succ` to the adjacency map
(`control_successors_[pred].push_back(n)`). -/
def addSuccEdge (m : List (Nat × List Nat)) (pred succ : Nat) :
    List (Nat × List Nat) :=
  match alistGet m pred with
  | none => alistSet m pred [succ]
  | some l => alistSet m pred (l ++ [succ])

/-- Drop consecutive duplicates (`std::unique` after sorting). -/
def dedupConsecutive : List Nat → List Nat
  | [] => []
  | [x] => [x]
  | x :: y :: t => if x = y then dedupConsecutive (y :: t) else x :: dedupConsecutive (y :: t)

/-- Stable insertion by a strict comparator (ties keep arrival order) —
the deterministic stand-in for `std::sort`, whose ordering of
tied elements is unspecified. -/
def sortedInsert {α : Type} (lt : α → α → Bool) (x : α) : List α → List α
  | [] => [x]
  | y :: t => if lt x y then x :: y :: t else y :: sortedInsert lt x t

/-- Stable sort by a strict comparator. -/
def stableSortBy {α : Type} (lt : α → α → Bool) (l : List α) : List α :=
  l.foldl (fun acc x => sortedInsert lt x acc) []

/-- `Interpreter::BuildControlSuccessors` (interpreter.cpp): every
control-like node contributes an edge from its control input (for a
`Region`, from every non-hole, non-self input); each successor list is
then ordered by node id and deduplicated. -/
def buildControlSuccessors (g : Graph) : List (Nat × List Nat) :=
  let raw := (List.range g.nodes.length).foldl (fun acc i =>
    let n := g.node i
    let op := n.opcode
    let is_control_like :=
      op = .kIf ∨ op = .kIfTrue ∨ op = .kIfFalse ∨ op = .kGoto ∨
      op = .kReturn ∨ op = .kHalt ∨ op = .kSafePoint ∨
      op = .kParsePredicate ∨ op = .kCallStaticJava ∨ op = .kRegion ∨
      op = .kProj ∨ op = .kParm ∨ op = .kRangeCheck
    if ¬ is_control_like then acc
    else if op = .kRegion then
      n.inputs.foldl (fun acc2 pred? =>
        match pred? with
        | none => acc2
        | some p => if p = i then acc2 else addSuccEdge acc2 p i) acc
    else if n.num_inputs = 0 then acc
    else
      match n.inputD 0 with
      | none => acc
      | some p => addSuccEdge acc p i) []
  raw.map (fun kv =>
    (kv.1, dedupConsecutive
      (stableSortBy (fun a b => (g.node a).id < (g.node b).id) kv.2)))

/-- `sun::Outcome` (outcome.hpp). -/
inductive OutcomeKind : Type where
  | kReturn
  | kThrow
  deriving Repr, DecidableEq

/-- `sun::Outcome`: kind, optional return value, exception-kind string
(default empty), final heap. -/
structure Outcome : Type where
  kind : OutcomeKind
  return_value : Option Value
  exception_kind : String
  heap : ConcreteHeap
  deriving Repr, DecidableEq

/-- The freshly initialized per-execution state of `ExecuteWithHeap`
(member clears, `heap_ = initial_heap`, precomputed adjacency). -/
def initState (g : Graph) (initial_heap : ConcreteHeap) : InterpState :=
  { control_successors := buildControlSuccessors g
    value_cache := []
    eval_active := []
    region_predecessor := []
    loop_iterations := []
    heap := initial_heap
    in_phi_update := false
    updating_region := none
    phi_old_values := []
    updating_phi := none
    phi_update_active := []
    phi_eval_stack := []
    memory_chain_visited := [] }

/-- The data-parameter filter of `ExecuteWithHeap`: a `type` property
that names a non-data kind, or does not end in `':'`, excludes the
`Parm`; a `Parm` without `type` survives.  (A non-string `type` would
make the C++ `std::get` throw; such nodes are excluded here.) -/
def isDataParam (n : Node) : Bool :=
  if n.has_prop "type" then
    match n.propD "type" with
    | .pStr t =>
      if t = "control" ∨ t = "memory" ∨ t = "return_address" ∨
          t = "rawptr:" ∨ t = "abIO" then false
      else if t.isEmpty then false
      else t.back = ':'
    | _ => false
  else true

/-- The `get_index` lambda of the parameter-sort comparator: a
`"Parm<N>:"` index parsed (untrimmed) out of `dump_spec`, `999999` when
absent or unparsable. -/
def paramSortIndex (n : Node) : Int :=
  if n.has_prop "dump_spec" then
    match n.propD "dump_spec" with
    | .pStr spec =>
      (match strFind spec "Parm" with
       | some parm_pos =>
         match strFindCharFrom spec ':' parm_pos with
         | some colon_pos =>
           match stoiOpt (strSubstr spec (parm_pos + 4) (colon_pos - parm_pos - 4)) with
           | some v => v
           | none => 999999
         | none => 999999
       | none => 999999)
    | _ => 999999
  else 999999

/-- The parameter-sort comparator of `ExecuteWithHeap`: compare `index`
properties when both are present, else the `dump_spec`-derived indices. -/
def paramLt (g : Graph) (a b : Nat) : Bool :=
  let na := g.node a
  let nb := g.node b
  if na.has_prop "index" ∧ nb.has_prop "index" then
    match na.propD "index", nb.propD "index" with
    | .pI32 x, .pI32 y => x < y
    | _, _ => paramSortIndex na < paramSortIndex nb
  else paramSortIndex na < paramSortIndex nb

/-- The control-stepping `while` loop of `ExecuteWithHeap`.  `remaining`
counts the iterations the budget still allows: the C++ loop runs
`step_count = 0, 1, ...` and throws when the pre-increment count exceeds
`kMaxControlSteps`, i.e. on iteration `kMaxControlSteps + 2`; so the
loop is entered with `remaining = kMaxControlSteps + 1`. -/
def ctrlLoop (g : Graph) : Nat → Nat → EvalM Nat
  | remaining, cur =>
    if (g.node cur).opcode = .kReturn then pure cur
    else
      match remaining with
      | 0 =>
        throw (.fatal ("Control flow exceeded maximum steps (" ++
          toString kMaxControlSteps ++ ")"))
      | r + 1 => do
        match ← stepControl g cur with
        | none => throw (.fatal "Control flow terminated without reaching Return")
        | some nxt => ctrlLoop g r nxt

/-- The return-value selection of `ExecuteWithHeap`: scan the `Return`'s
inputs from last to first (stopping before input 0) and take the first
non-hole, non-`Parm` input. -/
def returnValueNode (g : Graph) (retN : Node) : Option Nat :=
  ((List.range retN.num_inputs).reverse).findSome? (fun i =>
    if 1 ≤ i then
      match retN.inputD i with
      | some x => if (g.node x).opcode ≠ .kParm then some x else none
      | none => none
    else none)

/-- `Interpreter::ExecuteWithHeap` as a monadic pipeline: reset the
state, bind the data parameters (sorted by parameter index), drive
control from `Start` to `Return`, then evaluate the return value,
converting an `EvalException` — and only an `EvalException` — into a
`Throw` outcome carrying the heap. -/
def executeWithHeapM (g : Graph) (inputs : List Value)
    (initial_heap : ConcreteHeap) : EvalM Outcome := do
  set (initState g initial_heap)
  let params := (g.GetParameterNodes.filter (fun i => isDataParam (g.node i)))
  let params := stableSortBy (paramLt g) params
  params.forM (fun pi => do
    let v ← liftE (evalParm (g.node pi) inputs)
    modify fun s => { s with value_cache := alistSet s.value_cache pi v })
  match g.start? with
  | none => throw (.fatal "No Start node found in graph")
  | some start => do
    let retI ← ctrlLoop g (kMaxControlSteps + 1).toNat start
    match returnValueNode g (g.node retI) with
    | none => do
      let st ← get
      return { kind := .kReturn, return_value := none,
               exception_kind := "", heap := st.heap }
    | some vn =>
      tryCatch
        (do
          let v ← evalNode g kMaxEvalDepth vn
          let st ← get
          return { kind := .kReturn, return_value := some v,
                   exception_kind := "", heap := st.heap })
        (fun e => do
          match e with
          | .evalExc m => do
            let st ← get
            return { kind := .kThrow, return_value := none,
                     exception_kind := m, heap := st.heap }
          | .fatal m => throw (.fatal m))

/-- `Interpreter::ExecuteWithHeap` (interpreter.cpp): the outcome, or
the fatal error that escapes `execute`. -/
def ExecuteWithHeap (g : Graph) (inputs : List Value)
    (initial_heap : ConcreteHeap) : Except InterpErr Outcome :=
  ((executeWithHeapM g inputs initial_heap).run.run (initState g initial_heap)).1

/-- `Interpreter::Execute`: `ExecuteWithHeap` with a default heap. -/
def Execute (g : Graph) (inputs : List Value) : Except InterpErr Outcome :=
  ExecuteWithHeap g inputs ConcreteHeap.empty

/-! ## Observation helpers and fixtures -/

/-- Run an evaluation-monad computation from a state: the C++ call's
result (or escaping exception) together with the member state it leaves
behind. -/
def runEval {α : Type} (m : EvalM α) (st : InterpState) :
    Except InterpErr α × InterpState := m.run.run st

/-- `r < b` for the `RefId` stored in a `Value`, vacuous for non-`Ref`
values: "every `RefId` observable in `v` is below `b`". -/
def valueRefLtB (v : Value) (b : Int) : Bool :=
  match v with
  | .ref r => r < b
  | _ => true

/-- Every `RefId` stored in the heap's fields or arrays lies strictly
below `next_ref` — the observable-reference invariant of §8 of the spec,
restricted to the heap. -/
def heapRefsBelowB (h : ConcreteHeap) : Bool :=
  h.fields.all (fun kv => valueRefLtB kv.2 h.next_ref) &&
  h.arrays.all (fun av => av.2.all (fun v => valueRefLtB v h.next_ref))

/-- Shorthand node constructor for the fixture graphs. -/
def mkN (i : Int) (op : Opcode) (ins : List (Option Nat))
    (ps : List (String × Property)) : Node :=
  { id := i, opcode := op, inputs := ins, props := ps }

/-- §8 scenario 8 of the spec: a graph whose `Return` feeds
`DivI(ConI(1), ConI(0))`. -/
def gDiv : Graph := ⟨[
  mkN 0 .kStart [] [],
  mkN 1 .kConI [] [("value", .pI32 1)],
  mkN 2 .kConI [] [("value", .pI32 0)],
  mkN 3 .kDivI [some 1, some 2] [],
  mkN 4 .kReturn [some 0, some 3] []]⟩

/-- A graph whose `Return` feeds an array load (`LoadI` with the `array`
flag) of index 2 from the parameter-supplied array reference. -/
def gOob : Graph := ⟨[
  mkN 0 .kStart [] [],
  mkN 1 .kParm [some 0] [("index", .pI32 0)],
  mkN 2 .kConI [] [("value", .pI32 2)],
  mkN 3 .kLoadI [some 0, some 0, some 1, some 2] [("array", .pBool true)],
  mkN 4 .kReturn [some 0, some 3] []]⟩

/-- The heap after `AllocateArray(2)` on a fresh heap: ref 1 maps to a
two-element zero-initialized array. -/
def hArr2 : ConcreteHeap := ⟨2, [], [(1, [Value.i32 0, Value.i32 0])], [(1, 2)]⟩

/-- An infinite loop: `Start → Region ⇄ Goto` with a self-feeding data
Phi, so every revisit of the Region counts a loop iteration. -/
def gLoop : Graph := ⟨[
  mkN 0 .kStart [] [],
  mkN 1 .kRegion [some 0, some 4] [],
  mkN 2 .kConI [] [("value", .pI32 0)],
  mkN 3 .kPhi [some 1, some 2, some 3] [],
  mkN 4 .kGoto [some 1] []]⟩

/-- The interpreter state at the `Region` of `gLoop` when the
loop-iteration counter has reached the budget. -/
def stLoop100 : InterpState :=
  { initState gLoop ConcreteHeap.empty with
    loop_iterations := [(1, 100)]
    region_predecessor := [(1, 4)]
    value_cache := [(3, Value.i32 0), (2, Value.i32 0)] }

/-- The trivial graph `Start → Return` (void). -/
def gTriv : Graph := ⟨[
  mkN 0 .kStart [] [],
  mkN 1 .kReturn [some 0] []]⟩

/-- An adversarial caller-supplied initial heap: `next_ref` still 1 but a
field already stores `Ref 100`. -/
def hBad : ConcreteHeap := ⟨1, [((5, "f"), Value.ref 100)], [], []⟩

/-- Two mutually dependent loop Phis at one Region (`a' = b; b' = a`, the
classic swap): under sequential update both would collapse to the same
value, under simultaneous update they exchange. -/
def gSwap : Graph := ⟨[
  mkN 0 .kStart [] [],
  mkN 1 .kRegion [some 0, some 6] [],
  mkN 2 .kConI [] [("value", .pI32 10)],
  mkN 3 .kConI [] [("value", .pI32 20)],
  mkN 4 .kPhi [some 1, some 2, some 5] [],
  mkN 5 .kPhi [some 1, some 3, some 4] [],
  mkN 6 .kGoto [some 1] []]⟩

/-- The state of `gSwap` after its first iteration: Phi 4 holds 10, Phi 5
holds 20, control re-entered the Region over the back edge (`Goto` 6). -/
def stSwap : InterpState :=
  { initState gSwap ConcreteHeap.empty with
    value_cache := [(4, Value.i32 10), (5, Value.i32 20)]
    region_predecessor := [(1, 6)] }

/-- A state of `gSwap` in the middle of a back-edge update of Region 1:
the old Phi values are snapshotted, Phi 4 is the one being recomputed
and its evaluation is active. -/
def stUpd : InterpState :=
  { initState gSwap ConcreteHeap.empty with
    in_phi_update := true
    updating_region := some 1
    phi_old_values := [(4, Value.i32 10), (5, Value.i32 20)]
    updating_phi := some 4
    phi_update_active := [4]
    region_predecessor := [(1, 6)] }

/-- `gLoop` with all node ids shifted by 76 (Region id 77): exercising
the loop budget on a Region with a different node id. -/
def gLoop2 : Graph := ⟨[
  mkN 76 .kStart [] [],
  mkN 77 .kRegion [some 0, some 4] [],
  mkN 78 .kConI [] [("value", .pI32 0)],
  mkN 79 .kPhi [some 1, some 2, some 3] [],
  mkN 80 .kGoto [some 1] []]⟩

/-- The budget-exhausted state at the Region of `gLoop2`. -/
def stLoop100b : InterpState :=
  { initState gLoop2 ConcreteHeap.empty with
    loop_iterations := [(1, 100)]
    region_predecessor := [(1, 4)]
    value_cache := [(3, Value.i32 0), (2, Value.i32 0)] }

/-- A one-comparison fixture: `Bool(mask = m)` over `ConI(r)` (the
constant plays the tri-state comparison result). -/
def gBool (m r : Int) : Graph := ⟨[
  mkN 0 .kConI [] [("value", .pI32 r)],
  mkN 1 .kBool [some 0] [("mask", .pI32 m)]]⟩

/-! ## Shared lemmas about the evaluation monad and the list helpers -/

theorem runEval_bind {α β : Type} (x : EvalM α) (f : α → EvalM β) (st : InterpState) :
    runEval (x >>= f) st =
      (match runEval x st with
       | (.ok a, st2) => runEval (f a) st2
       | (.error e, st2) => (.error e, st2)) := by
  simp only [runEval, Bind.bind, ExceptT.bind, ExceptT.bindCont, ExceptT.mk,
    ExceptT.run, StateT.bind, StateT.run]
  rcases hx : x st with ⟨r | e, s⟩ <;> simp [hx, pure, StateT.pure]

theorem runEval_pure {α : Type} (a : α) (st : InterpState) :
    runEval (pure a : EvalM α) st = (.ok a, st) := rfl

theorem runEval_throw {α : Type} (e : InterpErr) (st : InterpState) :
    runEval (throw e : EvalM α) st = (.error e, st) := rfl

theorem runEval_get (st : InterpState) :
    runEval (get : EvalM InterpState) st = (.ok st, st) := rfl

theorem runEval_set (st' st : InterpState) :
    runEval (set st' : EvalM Unit) st = (.ok (), st') := rfl

theorem runEval_modify (f : InterpState → InterpState) (st : InterpState) :
    runEval (modify f : EvalM Unit) st = (.ok (), f st) := rfl

theorem runEval_tryCatch {α : Type} (x : EvalM α) (h : InterpErr → EvalM α)
    (st : InterpState) :
    runEval (tryCatch x h) st =
      (match runEval x st with
       | (.ok a, st2) => (.ok a, st2)
       | (.error e, st2) => runEval (h e) st2) := by
  simp only [runEval, tryCatch, tryCatchThe, MonadExceptOf.tryCatch, ExceptT.tryCatch,
    ExceptT.mk, ExceptT.run, StateT.bind, StateT.run, Bind.bind]
  rcases hx : x st with ⟨r | e, s⟩ <;> simp [hx, pure, StateT.pure]

theorem runEval_liftE_ok {α : Type} (a : α) (st : InterpState) :
    runEval (liftE (.ok a)) st = (.ok a, st) := rfl

theorem runEval_liftE_error {α : Type} (e : InterpErr) (st : InterpState) :
    runEval (liftE (α := α) (.error e)) st = (.error e, st) := rfl

theorem alistGet_mem {κ α : Type} [DecidableEq κ]
    {l : List (κ × α)} {k : κ} {v : α} (h : alistGet l k = some v) : (k, v) ∈ l := by
  induction l with
  | nil => simp [alistGet] at h
  | cons hd t ih =>
    obtain ⟨k₀, a₀⟩ := hd
    by_cases hk : k₀ = k
    · subst hk
      simp [alistGet] at h
      simp [h]
    · simp only [alistGet, if_neg hk] at h
      exact List.mem_cons_of_mem _ (ih h)

theorem alistSet_mem {κ α : Type} [DecidableEq κ]
    {l : List (κ × α)} {k : κ} {a : α} {kv : κ × α}
    (h : kv ∈ alistSet l k a) : kv ∈ l ∨ kv = (k, a) := by
  induction l with
  | nil => simp [alistSet] at h; simp [h]
  | cons hd t ih =>
    obtain ⟨k₀, a₀⟩ := hd
    by_cases hk : k₀ = k
    · subst hk
      simp only [alistSet, if_pos rfl] at h
      rcases List.mem_cons.mp h with h1 | h1
      · right; exact h1
      · left; exact List.mem_cons_of_mem _ h1
    · simp only [alistSet, if_neg hk] at h
      rcases List.mem_cons.mp h with h1 | h1
      · left; simp [h1]
      · rcases ih h1 with h2 | h2
        · left; exact List.mem_cons_of_mem _ h2
        · right; exact h2

theorem getD_replicate {α : Type} :
    ∀ (k i : Nat) (a d : α), i < k → (List.replicate k a).getD i d = a := by
  intro k
  induction k with
  | zero => intro i a d h; omega
  | succ k ih =>
    intro i a d h
    cases i with
    | zero => simp [List.replicate]
    | succ i => simpa [List.replicate] using ih i a d (by omega)

theorem getD_set_self {α : Type} :
    ∀ (l : List α) (i : Nat) (v d : α), i < l.length → (l.set i v).getD i d = v := by
  intro l
  induction l with
  | nil => intro i v d h; simp at h
  | cons x t ih =>
    intro i v d h
    cases i with
    | zero => simp
    | succ i => simpa using ih i v d (by simpa using h)

theorem getD_mem {α : Type} :
    ∀ (l : List α) (i : Nat) (d : α), i < l.length → l.getD i d ∈ l := by
  intro l
  induction l with
  | nil => intro i d h; simp at h
  | cons x t ih =>
    intro i d h
    cases i with
    | zero => simp
    | succ i =>
      simp only [List.getD_cons_succ]
      exact List.mem_cons_of_mem _ (ih i d (by simpa using h))

theorem mem_set {α : Type} :
    ∀ (l : List α) (i : Nat) (a v : α), v ∈ l.set i a → v ∈ l ∨ v = a := by
  intro l
  induction l with
  | nil => intro i a v h; simp at h
  | cons x t ih =>
    intro i a v h
    cases i with
    | zero =>
      rcases List.mem_cons.mp h with h1 | h1
      · right; exact h1
      · left; exact List.mem_cons_of_mem _ h1
    | succ i =>
      rcases List.mem_cons.mp h with h1 | h1
      · left; simp [h1]
      · rcases ih i a v h1 with h2 | h2
        · left; exact List.mem_cons_of_mem _ h2
        · right; exact h2

theorem valueRefLtB_mono {v : Value} {b b' : Int}
    (h : valueRefLtB v b = true) (hb : b ≤ b') : valueRefLtB v b' = true := by
  cases v
  case ref r => simp only [valueRefLtB, decide_eq_true_eq] at h ⊢; omega
  all_goals simp [valueRefLtB]

/-! ## The claims -/

/-- C9 (amended): `as_i32`, `as_i64` and `as_bool` fail on every value
whose dynamic tag is not the expected variant; `as_ref` fails on `I32`,
`I64` and `Bool` values but *succeeds* on `Null`, returning the stored
`0` — `Null` is the one variant mismatch an accessor tolerates. -/
theorem value_accessors_tag_check :
    (∀ x : Int, Value.as_i32 (.i64 x) = .error (.fatal "Value is not i32")) ∧
    (∀ b : Bool, Value.as_i32 (.b b) = .error (.fatal "Value is not i32")) ∧
    (∀ r : Int, Value.as_i32 (.ref r) = .error (.fatal "Value is not i32")) ∧
    (Value.as_i32 .null = .error (.fatal "Value is not i32")) ∧
    (∀ x : Int, Value.as_i32 (.i32 x) = .ok x) ∧
    (∀ x : Int, Value.as_i64 (.i32 x) = .error (.fatal "Value is not i64")) ∧
    (∀ b : Bool, Value.as_i64 (.b b) = .error (.fatal "Value is not i64")) ∧
    (∀ r : Int, Value.as_i64 (.ref r) = .error (.fatal "Value is not i64")) ∧
    (Value.as_i64 .null = .error (.fatal "Value is not i64")) ∧
    (∀ x : Int, Value.as_i64 (.i64 x) = .ok x) ∧
    (∀ x : Int, Value.as_bool (.i32 x) = .error (.fatal "Value is not bool")) ∧
    (∀ x : Int, Value.as_bool (.i64 x) = .error (.fatal "Value is not bool")) ∧
    (∀ r : Int, Value.as_bool (.ref r) = .error (.fatal "Value is not bool")) ∧
    (Value.as_bool .null = .error (.fatal "Value is not bool")) ∧
    (∀ b : Bool, Value.as_bool (.b b) = .ok b) ∧
    (∀ x : Int, Value.as_ref (.i32 x) = .error (.fatal "Value is not ref/null")) ∧
    (∀ x : Int, Value.as_ref (.i64 x) = .error (.fatal "Value is not ref/null")) ∧
    (∀ b : Bool, Value.as_ref (.b b) = .error (.fatal "Value is not ref/null")) ∧
    (∀ r : Int, Value.as_ref (.ref r) = .ok r) ∧
    (Value.as_ref .null = .ok 0) := by
  repeat' apply And.intro
  all_goals intros
  all_goals rfl

/-- C9 counterexample: `as_ref` applied to a value of the `Null` variant
— a dynamic tag other than `Ref` — does return a result (`0`), so "an
accessor on a value of any other variant does not return a result" is
false as stated. -/
theorem as_ref_null_counterexample : Value.as_ref Value.MakeNull = .ok 0 := rfl

/-- C3: `DivI`/`DivL` (`ModI`/`ModL`) with a zero divisor raise
`EvalException("Division by zero")` (`"Modulo by zero"`) — never a fatal
error — and the one catch site in `ExecuteWithHeap` converts exactly
that into a `Throw` outcome: the §8 fixture graph whose `Return` feeds
`DivI(ConI(1), ConI(0))` executes to
`Throw("Division by zero")` carrying the (untouched) heap. -/
theorem div_mod_zero_throws :
    (∀ x : Int, Evaluator.EvalDivI (.i32 x) (.i32 0) = .error (.evalExc "Division by zero")) ∧
    (∀ x : Int, Evaluator.EvalModI (.i32 x) (.i32 0) = .error (.evalExc "Modulo by zero")) ∧
    (∀ x : Int, Evaluator.EvalDivL (.i64 x) (.i64 0) = .error (.evalExc "Division by zero")) ∧
    (∀ x : Int, Evaluator.EvalDivL (.i32 x) (.i32 0) = .error (.evalExc "Division by zero")) ∧
    (∀ x : Int, Evaluator.EvalModL (.i64 x) (.i64 0) = .error (.evalExc "Modulo by zero")) ∧
    (∀ x : Int, Evaluator.EvalModL (.i32 x) (.i32 0) = .error (.evalExc "Modulo by zero")) ∧
    (Execute gDiv [] =
      .ok ⟨.kThrow, none, "Division by zero", ConcreteHeap.empty⟩) := by
  refine ⟨fun x => rfl, fun x => rfl, fun x => rfl, fun x => rfl,
    fun x => rfl, fun x => rfl, by decide⟩

/-- C10: parameter binding treats an out-of-range index inconsistently:
an out-of-range `index` *property* is the fatal error
`"Parm index out of range"`, while an out-of-range index parsed from
`dump_spec` (`"Parm<N>:"`) silently binds the parameter to `Null`. -/
theorem parm_index_out_of_range_inconsistent :
    (∀ (n : Node) (inputs : List Value) (idx : Int),
      alistGet n.props "index" = some (.pI32 idx) →
      (idx < 0 ∨ (inputs.length : Int) ≤ idx) →
      evalParm n inputs = .error (.fatal "Parm index out of range")) ∧
    (∀ (n : Node) (inputs : List Value) (s : String) (idx : Int),
      alistGet n.props "index" = none →
      alistGet n.props "dump_spec" = some (.pStr s) →
      parmDumpSpecParse s = .parsed idx →
      (inputs.length : Int) ≤ idx →
      evalParm n inputs = .ok Value.MakeNull) := by
  constructor
  · intro n inputs idx h hrange
    simp [evalParm, Node.has_prop, Node.propD, h, hrange]
  · intro n inputs s idx h hd hp hrange
    simp [evalParm, Node.has_prop, Node.propD, h, hd, hp, hrange]

/-- C10 witness: a `Parm` with `index = 3` and no arguments fails
fatally, while a `Parm` with `dump_spec = "Parm5: int"` and no arguments
binds to `Null`. -/
theorem parm_index_out_of_range_inconsistent_witness :
    evalParm (mkN 7 .kParm [] [("index", .pI32 3)]) [] =
      .error (.fatal "Parm index out of range") ∧
    evalParm (mkN 7 .kParm [] [("dump_spec", .pStr "Parm5: int")]) [] =
      .ok Value.MakeNull :=
  ⟨parm_index_out_of_range_inconsistent.1 _ [] 3 (by decide) (by decide),
   parm_index_out_of_range_inconsistent.2 _ [] "Parm5: int" 5 (by decide)
     (by decide) (by decide) (by decide)⟩

/-- C6: on an array freshly allocated with non-negative length `n`, any
in-bounds index reads the allocation default `I32(0)`, and writing `v`
at an in-bounds index and reading it back yields `v`. -/
theorem array_write_read_roundtrip
    (h : ConcreteHeap) (n : Int) (r : Int) (h₂ : ConcreteHeap) (i : Int) (v : Value)
    (hn : h.AllocateArray n = .ok (r, h₂))
    (hi0 : 0 ≤ i) (hin : i < n) :
    h₂.ReadArray r i = .ok (Value.MakeI32 0) ∧
    ∃ h₃, h₂.WriteArray r i v = .ok h₃ ∧ h₃.ReadArray r i = .ok v := by
  have hn0 : ¬ n < 0 := by omega
  simp only [ConcreteHeap.AllocateArray, if_neg hn0] at hn
  injection hn with hn
  injection hn with hr hh2
  subst hh2
  subst hr
  have hiNat : i.toNat < n.toNat := by omega
  have hlenN : (List.replicate n.toNat (Value.MakeI32 0)).length = n.toNat :=
    List.length_replicate _ _
  have hbound : ¬ (i < 0 ∨ ((List.replicate n.toNat (Value.MakeI32 0)).length : Int) ≤ i) := by
    rw [hlenN]; omega
  refine ⟨?_, ?_⟩
  · simp only [ConcreteHeap.ReadArray, alistGet_set_self, if_neg hbound]
    rw [getD_replicate _ _ _ _ hiNat]
  · refine ⟨{ next_ref := h.next_ref + 1
              fields := h.fields
              arrays := alistSet
                (alistSet h.arrays h.next_ref (List.replicate n.toNat (Value.MakeI32 0)))
                h.next_ref ((List.replicate n.toNat (Value.MakeI32 0)).set i.toNat v)
              array_lengths := alistSet h.array_lengths h.next_ref n }, ?_, ?_⟩
    · simp only [ConcreteHeap.WriteArray, alistGet_set_self, if_neg hbound]
    · have hbound2 : ¬ (i < 0 ∨
          (((List.replicate n.toNat (Value.MakeI32 0)).set i.toNat v).length : Int) ≤ i) := by
        simpa only [List.length_set] using hbound
      simp only [ConcreteHeap.ReadArray, alistGet_set_self, if_neg hbound2]
      rw [getD_set_self _ _ _ _ (by rw [hlenN]; exact hiNat)]

/-- C4: every comparison opcode returns the tri-state `I32` in
`{-1, 0, 1}` — `CmpI`/`CmpL` by signed order, `CmpU`/`CmpUL` by the
order of the `mod 2^32`/`mod 2^64` (unsigned) representatives, `CmpP`
numerically on references with `Null` read as `0` — and a `Bool` node's
mask test (`mask` property, or `lt/le/eq/ne/ge/gt` parsed from
`dump_spec`) yields true exactly when bit 0 (LT), bit 1 (EQ) or bit 2
(GT) matches the sign of the tri-state result; a `Bool(mask m)` node
evaluated over a comparison result `r` produces `Bool(boolOfMask m r)`. -/
theorem cmp_tristate_and_bool_mask :
    (∀ a b : Int, cmpCombine .kCmpI (.i32 a) (.i32 b) =
      .ok (.i32 (if a < b then -1 else if b < a then 1 else 0))) ∧
    (∀ a b : Int, cmpCombine .kCmpL (.i64 a) (.i64 b) =
      .ok (.i32 (if a < b then -1 else if b < a then 1 else 0))) ∧
    (∀ a b : Int, cmpCombine .kCmpL (.i32 a) (.i32 b) =
      .ok (.i32 (if a < b then -1 else if b < a then 1 else 0))) ∧
    (∀ a b : Int, cmpCombine .kCmpU (.i32 a) (.i32 b) =
      .ok (.i32 (if a % 2 ^ 32 < b % 2 ^ 32 then -1
        else if b % 2 ^ 32 < a % 2 ^ 32 then 1 else 0))) ∧
    (∀ a b : Int, cmpCombine .kCmpUL (.i64 a) (.i64 b) =
      .ok (.i32 (if a % 2 ^ 64 < b % 2 ^ 64 then -1
        else if b % 2 ^ 64 < a % 2 ^ 64 then 1 else 0))) ∧
    (∀ r s : Int, cmpCombine .kCmpP (.ref r) (.ref s) =
      .ok (.i32 (if r < s then -1 else if s < r then 1 else 0))) ∧
    (∀ s : Int, cmpCombine .kCmpP .null (.ref s) =
      .ok (.i32 (if 0 < s then -1 else if s < 0 then 1 else 0))) ∧
    (∀ r : Int, cmpCombine .kCmpP (.ref r) .null =
      .ok (.i32 (if r < 0 then -1 else if 0 < r then 1 else 0))) ∧
    (cmpCombine .kCmpP .null .null = .ok (.i32 0)) ∧
    (∀ m r : Int, boolOfMask m r = true ↔
      ((r < 0 ∧ Int.land m 1 ≠ 0) ∨ (r = 0 ∧ Int.land m 2 ≠ 0) ∨
       (0 < r ∧ Int.land m 4 ≠ 0))) ∧
    (∀ m : Int, boolMaskOfNode (mkN 0 .kBool [] [("mask", .pI32 m)]) = .ok m) ∧
    (maskFromDumpSpec "lt" = 1 ∧ maskFromDumpSpec "le" = 3 ∧
     maskFromDumpSpec "eq" = 2 ∧ maskFromDumpSpec "ne" = 5 ∧
     maskFromDumpSpec "ge" = 6 ∧ maskFromDumpSpec "gt" = 4) ∧
    (∀ m r : Int,
      (runEval (evalNode (gBool m r) kMaxEvalDepth 1)
        (initState (gBool m r) ConcreteHeap.empty)).1 =
      .ok (.b (boolOfMask m r))) := by
  refine ⟨?_, ?_, ?_, ?_, ?_, ?_, ?_, ?_, ?_, ?_, ?_, ?_, ?_⟩
  · intro a b
    simp only [cmpCombine, Value.as_i32, Value.MakeI32, bind, Except.bind]
    split_ifs <;> simp_all [pure, Except.pure]
  · intro a b
    simp only [cmpCombine, Evaluator.WidenI32ToI64, Value.is_i32, Value.as_i64,
      Value.MakeI32, bind, Except.bind]
    split_ifs <;> simp_all [pure, Except.pure]
    all_goals rw [if_neg (by omega), if_neg (by omega)]
  · intro a b
    simp only [cmpCombine, Evaluator.WidenI32ToI64, Value.is_i32, Value.as_i64,
      Value.MakeI32, bind, Except.bind]
    split_ifs <;> simp_all [pure, Except.pure]
    all_goals rw [if_neg (by omega), if_neg (by omega)]
  · intro a b
    simp only [cmpCombine, Value.as_i32, toU32, Value.MakeI32, bind, Except.bind]
    split_ifs <;> simp_all [pure, Except.pure]
  · intro a b
    simp only [cmpCombine, Evaluator.WidenI32ToI64, Value.is_i32, Value.as_i64, toU64,
      Value.MakeI32, bind, Except.bind]
    split_ifs <;> simp_all [pure, Except.pure]
    all_goals rw [if_neg (by omega), if_neg (by omega)]
  · intro r s
    simp only [cmpCombine, Value.is_ref, Value.is_null, Value.as_ref, Value.MakeI32,
      bind, Except.bind, Bool.not_true, Bool.not_false]
    split_ifs <;> simp_all [pure, Except.pure]
  · intro s
    simp only [cmpCombine, Value.is_ref, Value.is_null, Value.as_ref, Value.MakeI32,
      bind, Except.bind, Bool.not_true, Bool.not_false]
    split_ifs <;> simp_all [pure, Except.pure]
    all_goals rw [if_neg (by omega), if_neg (by omega)]
  · intro r
    simp only [cmpCombine, Value.is_ref, Value.is_null, Value.as_ref, Value.MakeI32,
      bind, Except.bind, Bool.not_true, Bool.not_false]
    split_ifs <;> simp_all [pure, Except.pure]
    all_goals rw [if_neg (by omega), if_neg (by omega)]
  · rfl
  · intro m r
    simp only [boolOfMask]
    split_ifs with h1 h2 h3 <;> simp_all
  · intro m
    rfl
  · refine ⟨rfl, rfl, rfl, rfl, rfl, rfl⟩
  · intro m r
    rfl

/-- C1: during a loop back-edge update of Region `R`, (i) a read
(`EvalNode`) of any data Phi of `R` other than the one being recomputed
returns its snapshotted previous-iteration value without touching the
state, at every recursion depth; (ii) so does a recursive read of the
Phi currently being recomputed (its evaluation marked active); (iii) the
newly computed values are installed only after every Phi of `R` is
recomputed: on the two mutually-dependent swap Phis (`a' = b`, `b' = a`
seeded with 10, 20) the back-edge update produces 20, 10 — the
simultaneous (`let`-rec) result, not the sequential one — and leaves
update mode. -/
theorem phi_backedge_simultaneous_update :
    (∀ (g : Graph) (fuel : Nat) (st : InterpState) (ni r : Nat) (old : Value),
      st.in_phi_update = true →
      st.updating_region = some r →
      (g.node ni).opcode = .kPhi →
      (g.node ni).region_input = some r →
      alistGet st.phi_old_values ni = some old →
      st.updating_phi ≠ some ni →
      runEval (evalNode g fuel ni) st = (.ok old, st)) ∧
    (∀ (g : Graph) (fuel : Nat) (st : InterpState) (ni r : Nat) (old : Value),
      st.in_phi_update = true →
      st.updating_region = some r →
      (g.node ni).opcode = .kPhi →
      (g.node ni).region_input = some r →
      alistGet st.phi_old_values ni = some old →
      st.updating_phi = some ni →
      ni ∈ st.phi_update_active →
      runEval (evalNode g fuel ni) st = (.ok old, st)) ∧
    ((runEval (updateRegionPhis gSwap 1 true) stSwap).1 = .ok () ∧
     alistGet (runEval (updateRegionPhis gSwap 1 true) stSwap).2.value_cache 4 =
       some (Value.i32 20) ∧
     alistGet (runEval (updateRegionPhis gSwap 1 true) stSwap).2.value_cache 5 =
       some (Value.i32 10) ∧
     (runEval (updateRegionPhis gSwap 1 true) stSwap).2.in_phi_update = false) := by
  have hbody : ∀ (g : Graph) (ev? : Option (Nat → EvalM Value)) (st : InterpState)
      (ni r : Nat) (old : Value),
      st.in_phi_update = true →
      st.updating_region = some r →
      (g.node ni).opcode = .kPhi →
      (g.node ni).region_input = some r →
      alistGet st.phi_old_values ni = some old →
      (st.updating_phi ≠ some ni ∨ ni ∈ st.phi_update_active) →
      runEval (evalNodeBody g ev? ni) st = (.ok old, st) := by
    intro g ev? st ni r old h1 h2 h3 h4 h5 h6
    rw [evalNodeBody]
    rw [runEval_bind]
    simp only [runEval_get, h1, h2, h3, h4, h5, Option.isSome_some]
    rcases h6 with h6 | h6 <;> simp [h6, runEval_pure]
  refine ⟨?_, ?_, by decide, by decide, by decide, by decide⟩
  · intro g fuel st ni r old h1 h2 h3 h4 h5 h6
    cases fuel with
    | zero => exact hbody g none st ni r old h1 h2 h3 h4 h5 (Or.inl h6)
    | succ f => exact hbody g (some _) st ni r old h1 h2 h3 h4 h5 (Or.inl h6)
  · intro g fuel st ni r old h1 h2 h3 h4 h5 h6 h7
    cases fuel with
    | zero => exact hbody g none st ni r old h1 h2 h3 h4 h5 (Or.inr h7)
    | succ f => exact hbody g (some _) st ni r old h1 h2 h3 h4 h5 (Or.inr h7)

/-- C1 witness: in the middle of the back-edge update of `gSwap`'s
Region (Phi 4 active), reading the other Phi 5 yields its snapshot 20,
and a recursive read of Phi 4 itself yields its snapshot 10. -/
theorem phi_backedge_simultaneous_update_witness :
    runEval (evalNode gSwap kMaxEvalDepth 5) stUpd = (.ok (Value.i32 20), stUpd) ∧
    runEval (evalNode gSwap kMaxEvalDepth 4) stUpd = (.ok (Value.i32 10), stUpd) :=
  ⟨phi_backedge_simultaneous_update.1 gSwap kMaxEvalDepth stUpd 5 1
      (Value.i32 20) (by decide) (by decide) (by decide) (by decide) (by decide)
      (by decide),
   phi_backedge_simultaneous_update.2.1 gSwap kMaxEvalDepth stUpd 4 1
      (Value.i32 10) (by decide) (by decide) (by decide) (by decide) (by decide)
      (by decide) (by decide)⟩

/-- C2 (amended): an array access with index `-1` or `length` fails with
the **fatal** interpreter error `"Array index out of bounds"` — a plain
`std::runtime_error` from the heap, which is *not* an `EvalException`
and therefore escapes `execute` instead of becoming a `Throw` outcome:
the fixture graph whose `Return` loads index 2 of the 2-element array
makes `execute` fail fatally rather than return
`Throw("Array index out of bounds")`. -/
theorem array_oob_fatal_error :
    (∀ (h : ConcreteHeap) (r : Int) (vec : List Value),
      alistGet h.arrays r = some vec →
      h.ReadArray r (-1) = .error (.fatal "Array index out of bounds") ∧
      h.ReadArray r vec.length = .error (.fatal "Array index out of bounds") ∧
      ∀ v : Value,
        h.WriteArray r (-1) v = .error (.fatal "Array index out of bounds") ∧
        h.WriteArray r vec.length v = .error (.fatal "Array index out of bounds")) ∧
    (ExecuteWithHeap gOob [.ref 1] hArr2 = .error (.fatal "Array index out of bounds")) := by
  refine ⟨?_, by decide⟩
  intro h r vec hmem
  refine ⟨?_, ?_, fun v => ⟨?_, ?_⟩⟩
  · simp only [ConcreteHeap.ReadArray, hmem]
    rw [if_pos (Or.inl (by norm_num))]
  · simp only [ConcreteHeap.ReadArray, hmem]
    rw [if_pos (Or.inr (le_refl _))]
  · simp only [ConcreteHeap.WriteArray, hmem]
    rw [if_pos (Or.inl (by norm_num))]
  · simp only [ConcreteHeap.WriteArray, hmem]
    rw [if_pos (Or.inr (le_refl _))]

/-- C2 witness: the out-of-bounds reads on the concrete 2-element
array heap. -/
theorem array_oob_fatal_error_witness :
    hArr2.ReadArray 1 (-1) = .error (.fatal "Array index out of bounds") ∧
    hArr2.ReadArray 1 2 = .error (.fatal "Array index out of bounds") :=
  ⟨(array_oob_fatal_error.1 hArr2 1 [Value.i32 0, Value.i32 0] (by decide)).1,
   (array_oob_fatal_error.1 hArr2 1 [Value.i32 0, Value.i32 0] (by decide)).2.1⟩

/-- C2 counterexample: on the out-of-bounds fixture execution, `execute`
escapes with the fatal error — it does not return a `Throw` outcome
carrying the heap, as the claim states. -/
theorem array_oob_not_thrown_counterexample :
    ExecuteWithHeap gOob [.ref 1] hArr2 = .error (.fatal "Array index out of bounds") ∧
    ExecuteWithHeap gOob [.ref 1] hArr2 ≠
      .ok ⟨.kThrow, none, "Array index out of bounds", hArr2⟩ :=
  ⟨by decide, by decide⟩

/-- C5: the embedded `ExecuteWithHeap` is a function of
`(graph, inputs, initial_heap)`: two runs on identical arguments return
equal results — same `Return`/`Throw` kind, same value or exception
message, same final heap.  (The determinism of the embedding rests on
the source using only deterministic containers for observable behaviour:
the pointer-keyed `std::map` iteration orders never influence a computed
value, a successor choice, or the heap.) -/
theorem execute_deterministic (g : Graph) (v : List Value) (h : ConcreteHeap)
    (r₁ r₂ : Except InterpErr Outcome)
    (h₁ : ExecuteWithHeap g v h = r₁) (h₂ : ExecuteWithHeap g v h = r₂) :
    r₁ = r₂ := h₁ ▸ h₂

/-- C5 witness: two runs of the division-by-zero fixture agree on the
full outcome (kind, message, heap). -/
theorem execute_deterministic_witness :
    (Except.ok (⟨.kThrow, none, "Division by zero", ConcreteHeap.empty⟩ : Outcome) :
      Except InterpErr Outcome) =
    Except.ok (⟨.kThrow, none, "Division by zero", ConcreteHeap.empty⟩ : Outcome) :=
  execute_deterministic gDiv [] ConcreteHeap.empty _ _ (by decide) (by decide)

/-- C7 (amended): allocation starts at 1 and always hands out the
current `next_ref`, strictly increasing it — so every allocated ref is
fresh; and on heaps whose stored `RefId`s all lie below `next_ref` (true
of the default heap, and preserved by every heap operation whose written
value obeys the same bound), `next_ref` strictly dominates every
`RefId` observable through the heap: stored fields, stored array
elements, and every `ReadField`/`ReadArray` result. -/
theorem heap_next_ref_invariant :
    (ConcreteHeap.empty.next_ref = 1) ∧
    (∀ h : ConcreteHeap, (h.AllocateObject).1 = h.next_ref) ∧
    (∀ h : ConcreteHeap, (h.AllocateObject).2.next_ref = h.next_ref + 1) ∧
    (∀ h : ConcreteHeap, heapRefsBelowB h = true →
      heapRefsBelowB (h.AllocateObject).2 = true) ∧
    (∀ (h : ConcreteHeap) (n r : Int) (h₂ : ConcreteHeap),
      h.AllocateArray n = .ok (r, h₂) →
      r = h.next_ref ∧ h₂.next_ref = h.next_ref + 1 ∧
      (heapRefsBelowB h = true → heapRefsBelowB h₂ = true)) ∧
    (∀ (h : ConcreteHeap) (obj : Int) (f : String) (v : Value),
      heapRefsBelowB h = true → valueRefLtB v h.next_ref = true →
      heapRefsBelowB (h.WriteField obj f v) = true) ∧
    (∀ (h : ConcreteHeap) (arr i : Int) (v : Value) (h₂ : ConcreteHeap),
      heapRefsBelowB h = true → valueRefLtB v h.next_ref = true →
      h.WriteArray arr i v = .ok h₂ → heapRefsBelowB h₂ = true) ∧
    (∀ (h : ConcreteHeap) (obj : Int) (f : String),
      heapRefsBelowB h = true → valueRefLtB (h.ReadField obj f) h.next_ref = true) ∧
    (∀ (h : ConcreteHeap) (arr i : Int) (v : Value),
      heapRefsBelowB h = true → h.ReadArray arr i = .ok v →
      valueRefLtB v h.next_ref = true) := by
  refine ⟨rfl, fun h => rfl, fun h => rfl, ?_, ?_, ?_, ?_, ?_, ?_⟩
  · -- AllocateObject preserves the bound (next_ref grows)
    intro h hwf
    simp only [heapRefsBelowB, ConcreteHeap.AllocateObject, Bool.and_eq_true,
      List.all_eq_true] at hwf ⊢
    exact ⟨fun kv hkv => valueRefLtB_mono (hwf.1 kv hkv) (by omega),
      fun av hav v hv => valueRefLtB_mono (hwf.2 av hav v hv) (by omega)⟩
  · -- AllocateArray: fresh ref, increment, preservation
    intro h n r h₂ hn
    have hn0 : ¬ n < 0 := by
      intro hc
      simp [ConcreteHeap.AllocateArray, if_pos hc] at hn
    simp only [ConcreteHeap.AllocateArray, if_neg hn0] at hn
    injection hn with hn
    injection hn with hr hh2
    subst hh2
    refine ⟨hr.symm, rfl, ?_⟩
    intro hwf
    simp only [heapRefsBelowB, Bool.and_eq_true, List.all_eq_true] at hwf ⊢
    refine ⟨fun kv hkv => valueRefLtB_mono (hwf.1 kv hkv) (by omega),
      fun av hav v hv => ?_⟩
    rcases alistSet_mem hav with hold | hnew
    · exact valueRefLtB_mono (hwf.2 av hold v hv) (by omega)
    · subst hnew
      simp only [List.mem_replicate] at hv
      simp [hv.2, valueRefLtB, Value.MakeI32]
  · -- WriteField preserves
    intro h obj f v hwf hv
    simp only [heapRefsBelowB, ConcreteHeap.WriteField, Bool.and_eq_true,
      List.all_eq_true] at hwf ⊢
    refine ⟨fun kv hkv => ?_, hwf.2⟩
    rcases alistSet_mem hkv with hold | hnew
    · exact hwf.1 kv hold
    · subst hnew
      exact hv
  · -- WriteArray preserves
    intro h arr i v h₂ hwf hv hw
    simp only [ConcreteHeap.WriteArray] at hw
    rcases hm : alistGet h.arrays arr with _ | vec
    · simp only [hm] at hw
      cases hw
    · simp only [hm] at hw
      by_cases hb : i < 0 ∨ (vec.length : Int) ≤ i
      · rw [if_pos hb] at hw
        cases hw
      · rw [if_neg hb] at hw
        injection hw with hw
        subst hw
        simp only [heapRefsBelowB, Bool.and_eq_true, List.all_eq_true] at hwf ⊢
        refine ⟨hwf.1, fun av hav w hwmem => ?_⟩
        rcases alistSet_mem hav with hold | hnew
        · exact hwf.2 av hold w hwmem
        · subst hnew
          rcases mem_set _ _ _ _ hwmem with hold2 | hveq
          · exact hwf.2 (arr, vec) (alistGet_mem hm) w hold2
          · subst hveq
            exact hv
  · -- ReadField observable bound
    intro h obj f hwf
    simp only [ConcreteHeap.ReadField]
    rcases hm : alistGet h.fields (obj, f) with _ | v
    · simp [valueRefLtB, Value.MakeI32]
    · simp only [heapRefsBelowB, Bool.and_eq_true, List.all_eq_true] at hwf
      exact hwf.1 ((obj, f), v) (alistGet_mem hm)
  · -- ReadArray observable bound
    intro h arr i v hwf hr
    simp only [ConcreteHeap.ReadArray] at hr
    rcases hm : alistGet h.arrays arr with _ | vec
    · simp only [hm] at hr
      cases hr
    · simp only [hm] at hr
      by_cases hb : i < 0 ∨ (vec.length : Int) ≤ i
      · rw [if_pos hb] at hr
        cases hr
      · rw [if_neg hb] at hr
        injection hr with hr
        subst hr
        simp only [heapRefsBelowB, Bool.and_eq_true, List.all_eq_true] at hwf
        rcases not_or.mp hb with ⟨hb1, hb2⟩
        refine hwf.2 (arr, vec) (alistGet_mem hm) _ (getD_mem _ _ _ ?_)
        show i.toNat < vec.length
        omega

/-- C7 witness: freshness and preservation applied on concrete heaps —
allocating a 2-array on the empty heap returns ref 1 and bumps
`next_ref` to 2, a write of an in-bound ref keeps the invariant, and a
read of the fresh array observes a value below `next_ref`. -/
theorem heap_next_ref_invariant_witness :
    (1 : Int) = ConcreteHeap.empty.next_ref ∧
    heapRefsBelowB (ConcreteHeap.empty.WriteField 5 "g" (Value.ref 0)) = true ∧
    valueRefLtB (Value.i32 0) hArr2.next_ref = true :=
  ⟨((heap_next_ref_invariant.2.2.2.2.1 ConcreteHeap.empty 2 1 hArr2 (by decide)).1).symm.trans
      heap_next_ref_invariant.1.symm,
   heap_next_ref_invariant.2.2.2.2.2.1 ConcreteHeap.empty 5 "g" (Value.ref 0)
      (by decide) (by decide),
   heap_next_ref_invariant.2.2.2.2.2.2.2.2 hArr2 1 0 (Value.i32 0)
      (by decide) (by decide)⟩

/-- C7 counterexample: with a caller-supplied initial heap whose field
store already holds `Ref 100` while `next_ref` is still 1, `execute` on
the trivial `Start → Return` graph returns that heap unchanged —
`next_ref` is *not* strictly greater than every observable `RefId`. -/
theorem next_ref_not_dominating_counterexample :
    ExecuteWithHeap gTriv [] hBad = .ok ⟨.kReturn, none, "", hBad⟩ ∧
    alistGet hBad.fields (5, "f") = some (Value.ref 100) ∧
    ¬ (100 < hBad.next_ref) :=
  ⟨by decide, by decide, by decide⟩

/-- C8 (amended): the three budgets exist with the required minimums —
100000 control steps (≥ 10000), 100 loop iterations per Region (≥ 100),
2000 value-recursion levels (≥ 2000) — and exhausting any of them is a
fatal error, never a silent truncation: a revisit of a Region with data
Phis whose iteration count has reached the budget, a control step past
the step budget, and a value evaluation past the depth budget each fail
with the corresponding fixed message (which names the exceeded bound,
not the offending node). -/
theorem execution_budgets_fatal :
    (kMaxControlSteps = 100000 ∧ 10000 ≤ kMaxControlSteps) ∧
    (kMaxLoopIterations = 100 ∧ 100 ≤ kMaxLoopIterations) ∧
    (kMaxEvalDepth = 2000 ∧ 2000 ≤ kMaxEvalDepth) ∧
    (∀ (g : Graph) (ci : Nat) (st : InterpState) (k : Int),
      (g.node ci).opcode = .kRegion →
      ((List.range g.nodes.length).any (fun i =>
        IsDataPhiNode g (some i) ∧ (g.node i).region_input = some ci)) = true →
      alistGet st.loop_iterations ci = some k →
      kMaxLoopIterations ≤ k →
      runEval (stepControl g ci) st =
        (.error (.fatal "Loop exceeded maximum iterations (100)"), st)) ∧
    (∀ (g : Graph) (cur : Nat) (st : InterpState),
      (g.node cur).opcode ≠ .kReturn →
      runEval (ctrlLoop g 0 cur) st =
        (.error (.fatal "Control flow exceeded maximum steps (100000)"), st)) ∧
    (∀ (g : Graph) (ni : Nat) (st : InterpState),
      st.in_phi_update = false →
      st.eval_active.contains ni = false →
      runEval (evalNode g 0 ni) st =
        (.error (.fatal "Value evaluation exceeded max depth (2000)"), st)) := by
  refine ⟨⟨rfl, by decide⟩, ⟨rfl, by decide⟩, ⟨rfl, by decide⟩, ?_, ?_, ?_⟩
  · -- loop-iteration budget
    intro g ci st k hreg hphi hit hk
    rw [stepControl]
    simp only [hreg]
    rw [if_pos hphi]
    simp only [runEval_bind, runEval_get, hit]
    rw [if_pos hk]
    simp only [runEval_bind, runEval_throw]
    rfl
  · -- control-step budget
    intro g cur st hret
    rw [ctrlLoop]
    simp only [if_neg hret]
    simp only [runEval_throw]
    rfl
  · -- value-recursion depth budget
    intro g ni st h1 h2
    show runEval (evalNodeBody g none ni) st =
      (.error (.fatal "Value evaluation exceeded max depth (2000)"), st)
    rw [evalNodeBody]
    rw [runEval_bind]
    simp only [runEval_get, h1]
    simp only [Bool.false_eq_true, false_and, if_neg (by simp : ¬ False)]
    have hmem : ¬ ni ∈ st.eval_active := by
      simpa using h2
    simp [hmem, runEval_bind, runEval_modify, runEval_tryCatch, runEval_throw,
      runEval_pure, List.erase_cons_head]
    rfl

/-- C8 witness: the budget failures at concrete inputs — the
budget-exhausted Region of `gLoop`, a spent step budget at `Start`, and
a spent depth budget at the constant node. -/
theorem execution_budgets_fatal_witness :
    runEval (stepControl gLoop 1) stLoop100 =
      (.error (.fatal "Loop exceeded maximum iterations (100)"), stLoop100) ∧
    runEval (ctrlLoop gLoop 0 0) stLoop100 =
      (.error (.fatal "Control flow exceeded maximum steps (100000)"), stLoop100) ∧
    runEval (evalNode gLoop 0 2) stLoop100 =
      (.error (.fatal "Value evaluation exceeded max depth (2000)"), stLoop100) :=
  ⟨execution_budgets_fatal.2.2.2.1 gLoop 1 stLoop100 100 (by decide) (by decide)
      (by decide) (by decide),
   execution_budgets_fatal.2.2.2.2.1 gLoop 0 stLoop100 (by decide),
   execution_budgets_fatal.2.2.2.2.2 gLoop 2 stLoop100 (by decide) (by decide)⟩

/-- C8 counterexample: the loop-budget failure is *not* reported with
the offending node identifier — two Regions with different node ids
(`1` in `gLoop`, `77` in `gLoop2`) produce the identical message, which
names only the bound. -/
theorem loop_budget_message_counterexample :
    runEval (stepControl gLoop 1) stLoop100 =
      (.error (.fatal "Loop exceeded maximum iterations (100)"), stLoop100) ∧
    runEval (stepControl gLoop2 1) stLoop100b =
      (.error (.fatal "Loop exceeded maximum iterations (100)"), stLoop100b) ∧
    (gLoop.node 1).id ≠ (gLoop2.node 1).id :=
  ⟨by decide, by decide, by decide⟩

/-- C6 witness: allocate a 2-element array on the empty heap, write 9 at
index 1, read it back; the untouched read gives 0. -/
theorem array_write_read_roundtrip_witness :
    hArr2.ReadArray 1 1 = .ok (Value.MakeI32 0) ∧
    ∃ h₃, hArr2.WriteArray 1 1 (Value.MakeI32 9) = .ok h₃ ∧
      h₃.ReadArray 1 1 = .ok (Value.MakeI32 9) := by
  have h := array_write_read_roundtrip ConcreteHeap.empty 2 1 hArr2 1
    (Value.MakeI32 9) (by decide) (by decide) (by decide)
  exact h

end Sun
